/-
Verification development for the kokoro.doctor telehealth backend.

The Python request handlers of the repository are shallowly embedded as
executable Lean functions: DynamoDB tables become lists of items, S3 becomes
a list of keyed objects, fallible code returns Except, and the outer
try/except blocks of each handler become explicit wrappers over a Python
exception type.  Library calls (bcrypt, base64, IEEE-754 floats, Decimal,
DynamoDB/S3 primitives) are modelled in clearly marked definitions.
-/
import Mathlib

instance {ε α : Type} [DecidableEq ε] [DecidableEq α] : DecidableEq (Except ε α) := fun a b =>
  match a, b with
  | .ok x, .ok y => decidable_of_iff (x = y) (by simp)
  | .error x, .error y => decidable_of_iff (x = y) (by simp)
  | .ok _, .error _ => isFalse (by simp)
  | .error _, .ok _ => isFalse (by simp)

/-- A Python exception as observed by the handlers: either a deliberately
raised HTTPException (status code and detail), a KeyError (missing dict
key), or some other exception carrying its message. -/
inductive PyExc where
  | http (status : Nat) (detail : String)
  | keyError (key : String)
  | err (msg : String)
deriving DecidableEq, Repr

/-- Python str() of an exception: Starlette renders HTTPException as
"status: detail"; KeyError renders as the repr of the key. -/
def pyStr : PyExc → String
  | .http s d => toString s ++ ": " ++ d
  | .keyError k => "'" ++ k ++ "'"
  | .err m => m

/-- The HTTP outcome delivered to the caller: status code and detail on
error. -/
abbrev HttpErr := Nat × String

/-- A handler body wrapped in the pattern
try ... except HTTPException as he: raise he / except Exception as e:
raise HTTPException(500, str(e)): deliberate HTTP errors pass through,
anything else becomes a 500. -/
def wrapHttp {α : Type} : Except PyExc α → Except HttpErr α
  | .ok a => .ok a
  | .error (.http s d) => .error (s, d)
  | .error e => .error (500, pyStr e)

/-- A handler body wrapped in a bare except Exception as e:
raise HTTPException(500, str(e)) block, with no HTTPException re-raise
clause: every exception, including a deliberately raised HTTPException,
is converted to a 500 whose detail is str(e). -/
def wrapAll {α : Type} : Except PyExc α → Except HttpErr α
  | .ok a => .ok a
  | .error e => .error (500, pyStr e)

/-! ## Character and string helpers (Python library modelling) -/

/-- Boolean prefix test on character lists (models DynamoDB begins_with and
Python str.startswith). -/
def chPref : List Char → List Char → Bool
  | [], _ => true
  | _ :: _, [] => false
  | a :: as, b :: bs => a == b && chPref as bs

/-- Modelled from the library: the DynamoDB begins_with sort-key condition. -/
def beginsWith (pre s : String) : Bool := chPref pre.data s.data

theorem chPref_append (l t : List Char) : chPref l (l ++ t) = true := by
  induction l with
  | nil => rfl
  | cons a as ih => simp [chPref, ih]

theorem data_append_eq (s t : String) : (s ++ t).data = s.data ++ t.data := by
  cases s; cases t; rfl

theorem beginsWith_append (s t : String) : beginsWith s (s ++ t) = true := by
  unfold beginsWith; rw [data_append_eq]; exact chPref_append ..

theorem string_append_right_inj {s a b : String} (h : s ++ a = s ++ b) : a = b := by
  cases s with | mk sd =>
  cases a with | mk ad =>
  cases b with | mk bd =>
  have h2 : sd ++ ad = sd ++ bd := congrArg String.data h
  exact congrArg String.mk (List.append_cancel_left h2)

/-- Models Python str.split(sep) for a single-character separator. -/
def splitChar (sep : Char) : List Char → List (List Char)
  | [] => [[]]
  | c :: cs =>
    let r := splitChar sep cs
    if c = sep then [] :: r else (c :: r.headD []) :: r.tail

/-- Decimal digit value. -/
def digitVal (c : Char) : Option Nat :=
  if '0' ≤ c ∧ c ≤ '9' then some (c.toNat - 48) else none

def digitsToNatAux : Nat → List Char → Option Nat
  | acc, [] => some acc
  | acc, c :: cs =>
    match digitVal c with
    | some v => digitsToNatAux (acc * 10 + v) cs
    | none => none

/-- Parse a nonempty all-digit character list as a natural number. -/
def digitsToNat : List Char → Option Nat
  | [] => none
  | l => digitsToNatAux 0 l

/-- Python str.strip() whitespace set (ASCII model). -/
def pySpace (c : Char) : Bool :=
  c == ' ' || c == '\t' || c == '\n' || c == '\r' || c == '\x0b' || c == '\x0c'

/-- Models Python str.strip(). -/
def pyStrip (s : String) : String :=
  ⟨((s.data.dropWhile pySpace).reverse.dropWhile pySpace).reverse⟩

/-- Models Python str.lower() (ASCII model). -/
def pyLower (s : String) : String := ⟨s.data.map Char.toLower⟩

/-! ## Calendar (Python datetime modelling) -/

def isLeap (y : Nat) : Bool := y % 4 == 0 && (y % 100 != 0 || y % 400 == 0)

def daysInMonth (y m : Nat) : Nat :=
  if m = 2 then (if isLeap y then 29 else 28)
  else if m = 4 ∨ m = 6 ∨ m = 9 ∨ m = 11 then 30 else 31

/-- Modelled from the library: days since 1970-01-01 of the civil date
(y, m, d), 1 ≤ y. -/
def daysFromCivil (y m d : Nat) : Int :=
  let yy : Int := if m ≤ 2 then (y : Int) - 1 else (y : Int)
  let era : Int := yy / 400
  let yoe : Int := yy - era * 400
  let mp : Int := ((m : Int) + 9) % 12
  let doy : Int := (153 * mp + 2) / 5 + (d : Int) - 1
  let doe : Int := yoe * 365 + yoe / 4 - yoe / 100 + doy
  era * 146097 + doe - 719468

/-- Modelled from the library: strftime("%A") weekday name
(1970-01-01 was a Thursday). -/
def dayName (z : Int) : String :=
  ["Thursday", "Friday", "Saturday", "Sunday", "Monday", "Tuesday",
   "Wednesday"].getD (z % 7).toNat ""

/-- A parsed calendar date. -/
abbrev Date := Nat × Nat × Nat

/-- Modelled from the library: datetime.strptime(s, "%Y-%m-%d") — split on
the dashes, parse decimal fields, validate ranges; none models the
ValueError raised on malformed input. -/
def parseDate (s : String) : Option Date :=
  match (splitChar '-' s.data).map digitsToNat with
  | [some y, some m, some d] =>
    if 1 ≤ y ∧ y ≤ 9999 ∧ 1 ≤ m ∧ m ≤ 12 ∧ 1 ≤ d ∧ d ≤ daysInMonth y m then
      some (y, m, d)
    else none
  | _ => none

/-- Epoch days of a parsed date. -/
def epochDays (dt : Date) : Int := daysFromCivil dt.1 dt.2.1 dt.2.2

/-- The weekday name strftime("%A") produces for a date. -/
def weekdayOf (dt : Date) : String := dayName (epochDays dt)

/-! ## Base64 (Python library modelling) -/

def b64Index (c : Char) : Option Nat :=
  if 'A' ≤ c ∧ c ≤ 'Z' then some (c.toNat - 65)
  else if 'a' ≤ c ∧ c ≤ 'z' then some (c.toNat - 97 + 26)
  else if '0' ≤ c ∧ c ≤ '9' then some (c.toNat - 48 + 52)
  else if c = '+' then some 62
  else if c = '/' then some 63
  else none

/-- Big-endian byte expansion of a value into n bytes. -/
def bytesOfNat (v : Nat) : Nat → List Nat
  | 0 => []
  | n + 1 => bytesOfNat (v / 256) n ++ [v % 256]

/-- Modelled from the library: base64.b64decode in its default
non-validating mode — characters outside the alphabet are discarded,
the remaining length must be a multiple of 4 with at most two trailing
padding characters (binascii.Error, i.e. none, otherwise), and the
6-bit groups are packed big-endian into bytes. -/
def b64decode (s : String) : Option (List Nat) :=
  let kept := s.data.filter fun c => (b64Index c).isSome || c == '='
  let pad := (kept.reverse.takeWhile (fun c => c == '=')).length
  let body := kept.takeWhile fun c => c != '='
  if body.length + pad ≠ kept.length then none
  else if (body.length + pad) % 4 ≠ 0 then none
  else if 2 < pad then none
  else
    let acc := body.foldl (fun a c => a * 64 + (b64Index c).getD 0) 0
    let bits := 6 * body.length
    some (bytesOfNat (acc >>> (bits % 8)) (bits / 8))

/-! ## Schemaless items (DynamoDB modelling) -/

/-- An attribute value of a schemaless record. -/
inductive AttrVal where
  | str (s : String)
  | bool (b : Bool)
  | int (n : Int)
  | strList (l : List String)
  | null
deriving DecidableEq, Repr

/-- Python truthiness of an attribute value. -/
def pyTruthy : AttrVal → Bool
  | .str s => s != ""
  | .bool b => b
  | .int n => n != 0
  | .strList l => !l.isEmpty
  | .null => false

/-- A schemaless record: an association list of attributes (a Python
dict; keys unique in records produced by the handlers). -/
abbrev ARec := List (String × AttrVal)

/-- Dict lookup: item.get(k) / item[k]. -/
def alGet : ARec → String → Option AttrVal
  | [], _ => none
  | (k', v) :: r, k => if k' = k then some v else alGet r k

/-- Dict update: item[k] = v (replaces in place, appends if absent). -/
def alSet : ARec → String → AttrVal → ARec
  | [], k, v => [(k, v)]
  | (k', v') :: r, k, v => if k' = k then (k', v) :: r else (k', v') :: alSet r k v

theorem alGet_alSet_same (r : ARec) (k : String) (v : AttrVal) :
    alGet (alSet r k v) k = some v := by
  induction r with
  | nil => simp [alSet, alGet]
  | cons p r ih =>
    obtain ⟨k', v'⟩ := p
    by_cases h : k' = k <;> simp [alSet, alGet, h, ih]

theorem alGet_alSet_other (r : ARec) (k k' : String) (v : AttrVal) (h : k ≠ k') :
    alGet (alSet r k v) k' = alGet r k' := by
  induction r with
  | nil => simp [alSet, alGet, h]
  | cons p r ih =>
    obtain ⟨k₀, v₀⟩ := p
    by_cases h₀ : k₀ = k
    · subst h₀; simp [alSet, alGet, h]
    · simp only [alSet, if_neg h₀, alGet]
      by_cases h₁ : k₀ = k' <;> simp [h₁, ih]

/-! ## IEEE-754 double model (payment service)

The payment handler computes int(amount * 100) on a JSON-parsed float.
Nonnegative finite doubles are exact dyadic rationals m / 2 ^ s; parsing a
decimal literal and multiplying round the exact value to 53 significant
bits, to nearest, ties to even.  Everything is modelled with exact natural
arithmetic. -/

/-- Division rounded to the nearest integer, ties to even:
the rounding used for IEEE-754 significands. -/
def rhe (a b : Nat) : Nat :=
  let q := a / b
  let r := a % b
  if 2 * r < b then q
  else if b < 2 * r then q + 1
  else if q % 2 = 0 then q else q + 1

/-- Fuel-bounded floor of log2: lg2 fuel n = floor (log2 n) for 1 ≤ n < 2 ^ fuel. -/
def lg2 : Nat → Nat → Nat
  | 0, _ => 0
  | fuel + 1, n => if 2 ≤ n then lg2 fuel (n / 2) + 1 else 0

/-- A nonnegative dyadic rational m / 2 ^ s: the exact value of a
nonnegative finite double. -/
structure Dyadic where
  m : Nat
  s : Nat
deriving DecidableEq, Repr

/-- Modelled from the library: rounding the exact dyadic a / 2 ^ s to 53
significant bits (nearest, ties to even) — the value an IEEE-754 double
operation returns when its exact result is a / 2 ^ s (no
overflow/underflow in the ranges used here). -/
def roundDyadic (a s : Nat) : Dyadic :=
  let L := lg2 128 a
  if L ≤ 52 then ⟨a, s⟩
  else
    let k := L - 52
    let m := rhe a (2 ^ k)
    if k ≤ s then ⟨m, s - k⟩ else ⟨m * 2 ^ (k - s), 0⟩

/-- Modelled from the library: the IEEE-754 double nearest to n / d
(for 0 < n, 0 < d), i.e. the value json.loads produces for the decimal
literal n / d.  The exponent is located with 64 guard bits, then the
53-bit significand is rounded to nearest, ties to even. -/
def toDouble (n d : Nat) : Dyadic :=
  let e : Int := (lg2 128 (n * 2 ^ 64 / d) : Int) - 64
  if e ≤ 52 then
    let t : Nat := (52 - e).toNat
    ⟨rhe (n * 2 ^ t) d, t⟩
  else
    let k : Nat := (e - 52).toNat
    ⟨rhe n (d * 2 ^ k) * 2 ^ k, 0⟩

/-- Modelled from the library: double multiplication by an exactly
representable integer c (here c = 100): the exact product, rounded back
to 53 bits. -/
def dmulNat (x : Dyadic) (c : Nat) : Dyadic := roundDyadic (x.m * c) x.s

/-- Python int() of a nonnegative float: truncation toward zero. -/
def pyIntOfDyadic (x : Dyadic) : Nat := x.m / 2 ^ x.s

/-! ## Payment service (src/payment/lambda_function.py) -/

/-- A JSON number in the request body: json.loads yields a Python int for
an integer literal and a float for a decimal literal.  Only nonnegative
floats are modelled (the claims only concern positive amounts). -/
inductive JsonNum where
  | int (n : Int)
  | float (x : Dyadic)
deriving DecidableEq, Repr

/-- The request the handler sends to the payment gateway. -/
structure PaymentLinkData where
  amount : Int
  currency : String
  description : String
  callback_url : String
  callback_method : String
deriving DecidableEq, Repr

/-- Embedding of create_payment_link: validates the amount
(falsy, non-numeric or non-positive fails with 400 "Invalid amount"),
then converts to minor units as int(amount * 100) — exact for int
amounts, IEEE-754 double arithmetic for float amounts — and requests a
link in fixed currency INR. -/
def create_payment_link (amount? : Option JsonNum) : Except HttpErr PaymentLinkData :=
  match amount? with
  | none => .error (400, "Invalid amount")
  | some (.int n) =>
      if n ≤ 0 then .error (400, "Invalid amount")
      else .ok ⟨n * 100, "INR", "Payment for selected plan",
                "https://kokoro.doctor/payment-success", "get"⟩
  | some (.float x) =>
      if x.m = 0 then .error (400, "Invalid amount")
      else .ok ⟨(pyIntOfDyadic (dmulNat x 100) : Int), "INR", "Payment for selected plan",
                "https://kokoro.doctor/payment-success", "get"⟩

/-- Payment details returned by the gateway for a payment id. -/
structure GatewayPayment where
  order_id : Option String
  status : Option String
  amount : Option Nat
deriving DecidableEq, Repr

/-- Modelled from the library: Python Decimal division Decimal a / Decimal b
when the exact quotient has a finite decimal representation within the
default 28-digit context: the result is coeff / 10 ^ scale with the least
such scale.  (A non-terminating quotient would be rounded; not exercised
here.) -/
def decDivExact (a b : Nat) : Option (Nat × Nat) :=
  (List.range 29).findSome? fun k =>
    if (a * 10 ^ k) % b = 0 then some (a * 10 ^ k / b, k) else none

/-- Embedding of generate_invoice_url: a deterministic placeholder URL. -/
def generate_invoice_url (payment_id : String) : String :=
  "https://yourwebsite.com/invoices/" ++ payment_id ++ ".pdf"

/-- The record verify_payment persists: the amount is the gateway's
minor-unit integer divided by 100 as a Decimal (modelled as
coefficient / 10 ^ scale). -/
structure PaymentRecord where
  payment_id : String
  order_id : String
  amount : Option (Nat × Nat)
  currency : String
  status : String
  timestamp : String
  invoice_url : Option String
deriving DecidableEq, Repr

/-- Embedding of verify_payment: requires payment_id; reads order id,
status and minor-unit amount from the gateway response (with the code's
defaults); on status "captured" derives the placeholder invoice URL;
persists the record with amount = Decimal(amount) / Decimal(100). -/
def verify_payment (payment_id? : Option String) (gw : GatewayPayment)
    (now : String) : Except HttpErr PaymentRecord :=
  match payment_id? with
  | none => .error (400, "Missing payment_id")
  | some pid =>
    if pid = "" then .error (400, "Missing payment_id")
    else
      let order_id := gw.order_id.getD "N/A"
      let status := gw.status.getD "failed"
      let amount := gw.amount.getD 0
      let invoice_url := if status = "captured" then some (generate_invoice_url pid) else none
      .ok ⟨pid, order_id, decDivExact amount 100, "INR", status, now, invoice_url⟩

/-- Modelled from the spec words for C9: "minor units = amount multiplied
by 100 and truncated to integer", read as exact arithmetic on the decimal
amount n / d. -/
def specMinorUnits (n d : Nat) : Nat := n * 100 / d

/-- C9 counterexample: the parenthetical "minor units = amount multiplied
by 100 and truncated to integer, for every positive numeric amount" fails
on the code: for the positive amount 0.29, the handler computes
int(double(0.29) * 100) = 28, while the exact multiply-and-truncate gives
29. -/
theorem C9_counterexample :
    create_payment_link (some (.float (toDouble 29 100))) =
      .ok ⟨28, "INR", "Payment for selected plan",
           "https://kokoro.doctor/payment-success", "get"⟩ ∧
    specMinorUnits 29 100 = 29 ∧ (28 : Int) ≠ 29 := by
  refine ⟨by decide, by decide, by decide⟩

/-- C9 amended: minor units are int(amount * 100) in IEEE-754 double
arithmetic, which for the amount 499.99 is exactly 49999 (agreeing with
the exact truncation, no drift), though not for every positive amount;
verifying a captured payment with gateway amount 49999 persists exactly
the decimal 499.99 (coefficient 49999, scale 2, i.e. 49999 / 10 ^ 2,
an exact division with no floating point involved). -/
theorem C9_amended_thm :
    create_payment_link (some (.float (toDouble 49999 100))) =
      .ok ⟨49999, "INR", "Payment for selected plan",
           "https://kokoro.doctor/payment-success", "get"⟩ ∧
    specMinorUnits 49999 100 = 49999 ∧
    verify_payment (some "pay_A1") ⟨some "order_1", some "captured", some 49999⟩ "t0" =
      .ok ⟨"pay_A1", "order_1", some (49999, 2), "INR", "captured", "t0",
           some "https://yourwebsite.com/invoices/pay_A1.pdf"⟩ ∧
    (49999 : Nat) = 499 * 100 + 99 := by
  refine ⟨by decide, by decide, by decide, by decide⟩

/-! ## Doctor booking service

Two variants coexist in the repository: the capacity model
(src/.aws-sam/build/DoctorBookingsLambda/main.py, up to 5 patients per
slot) and the occupancy model (src/doctorBookings/main.py, single
occupancy with an availability flag). -/

/-- A row of DoctorBookingsTable.  The capacity variant writes a ttl
attribute; the occupancy variant does not (ttl = none). -/
structure BookingItem where
  PK : String
  SK : String
  doctor_id : String
  date : String
  start : String
  user_id : String
  ttl : Option Int
deriving DecidableEq, Repr

/-- A row of DoctorAvailabilityTable; available is optional because the
handlers read it with item.get("available", True). -/
structure AvailItem where
  PK : String
  SK : String
  available : Option Bool
deriving DecidableEq, Repr

/-- Modelled from the library: DynamoDB put_item — replaces the item with
the same (PK, SK) key, appends otherwise. -/
def ddbPutBooking (tbl : List BookingItem) (it : BookingItem) : List BookingItem :=
  if tbl.any (fun b => b.PK == it.PK && b.SK == it.SK) then
    tbl.map fun b => if b.PK == it.PK && b.SK == it.SK then it else b
  else tbl ++ [it]

/-- Modelled from the library: DynamoDB delete_item by full key
(no error when absent). -/
def ddbDeleteBooking (tbl : List BookingItem) (pk sk : String) : List BookingItem :=
  tbl.filter fun b => !(b.PK == pk && b.SK == sk)

/-- Modelled from the library: DynamoDB put_item on the availability
table. -/
def ddbPutAvail (tbl : List AvailItem) (it : AvailItem) : List AvailItem :=
  if tbl.any (fun a => a.PK == it.PK && a.SK == it.SK) then
    tbl.map fun a => if a.PK == it.PK && a.SK == it.SK then it else a
  else tbl ++ [it]

/-- Modelled from the library: the booking-table query
Key("PK").eq(pk) & Key("SK").begins_with(start). -/
def slotQuery (tbl : List BookingItem) (pk start : String) : List BookingItem :=
  tbl.filter fun b => b.PK == pk && beginsWith start b.SK

/-- Modelled from the library: the availability-table query
Key("PK").eq(pk). -/
def availQuery (tbl : List AvailItem) (pk : String) : List AvailItem :=
  tbl.filter fun a => a.PK == pk

/-- item["SK"].split("-")[0]: the start time encoded in a template sort
key "start-end". -/
def startOfSK (sk : String) : String := ⟨(splitChar '-' sk.data).headD []⟩

/-- Embedding of book_slot from the capacity variant
(DoctorBookingsLambda), body inside the try block: query the users
already holding (doctor, date, start); reject a repeat booking with 400
"User already booked" and a full slot (5 users) with 400 "Slot full";
otherwise parse the date and append a Booking record carrying
ttl = epoch seconds of date + 7 days. -/
def bookSlotCapCore (bookings : List BookingItem)
    (doctor_id date start user_id : String) : Except PyExc (List BookingItem) :=
  let pk := doctor_id ++ "#" ++ date
  let sk := start ++ "#" ++ user_id
  let users := (slotQuery bookings pk start).map fun b => b.user_id
  if user_id ∈ users then .error (.http 400 "User already booked")
  else if 5 ≤ users.length then .error (.http 400 "Slot full")
  else
    match parseDate date with
    | none => .error (.err ("time data " ++ date ++ " does not match format"))
    | some dt =>
      .ok (ddbPutBooking bookings
        ⟨pk, sk, doctor_id, date, start, user_id, some ((epochDays dt + 7) * 86400)⟩)

/-- The capacity-variant handler after its except block: the body has no
HTTPException re-raise clause, so every failure — including the
deliberate 400s — reaches the caller as a 500. -/
def book_slot_cap (bookings : List BookingItem)
    (doctor_id date start user_id : String) : Except HttpErr (List BookingItem) :=
  wrapAll (bookSlotCapCore bookings doctor_id date start user_id)

/-- The state visible to the capacity-variant booking handler: both
tables.  The handler body never references the availability table. -/
structure CapState where
  avail : List AvailItem
  bookings : List BookingItem
deriving DecidableEq, Repr

/-- The capacity-variant booking over the full state: only the booking
table is written. -/
def bookSlotCapState (st : CapState) (doctor_id date start user_id : String) :
    Except PyExc CapState :=
  (bookSlotCapCore st.bookings doctor_id date start user_id).map
    fun bs => ⟨st.avail, bs⟩

/-- Embedding of book_slot from the occupancy variant
(src/doctorBookings/main.py), body inside the try block: map the date to
its weekday, scan that weekday's template entries for the first one whose
start matches and whose available flag (defaulting to True) is set; fail
with 400 "Slot is unavailable or does not exist." otherwise; reject a
repeat booking by the same user with 400 "User already booked this
slot."; then write the Booking record (computing a 7-day expiry that the
source never stores: the item has no ttl attribute) and put the template
entry back with available = False. -/
def bookSlotOccCore (avail : List AvailItem) (bookings : List BookingItem)
    (doctor_id date start user_id : String) :
    Except PyExc (List AvailItem × List BookingItem) :=
  let pk := doctor_id ++ "#" ++ date
  let sk := start ++ "#" ++ user_id
  match parseDate date with
  | none => .error (.err ("time data " ++ date ++ " does not match format"))
  | some dt =>
    let apk := doctor_id ++ "#" ++ weekdayOf dt
    match (availQuery avail apk).find?
        (fun it => startOfSK it.SK == start && it.available.getD true) with
    | none => .error (.http 400 "Slot is unavailable or does not exist.")
    | some it =>
      if (slotQuery bookings pk start).any (fun b => b.user_id == user_id) then
        .error (.http 400 "User already booked this slot.")
      else
        .ok (ddbPutAvail avail ⟨apk, it.SK, some false⟩,
             ddbPutBooking bookings ⟨pk, sk, doctor_id, date, start, user_id, none⟩)

/-- The occupancy-variant handler has an except HTTPException re-raise
clause, so the deliberate 400s survive. -/
def book_slot_occ (avail : List AvailItem) (bookings : List BookingItem)
    (doctor_id date start user_id : String) :
    Except HttpErr (List AvailItem × List BookingItem) :=
  wrapHttp (bookSlotOccCore avail bookings doctor_id date start user_id)

/-- Embedding of cancel_slot from the occupancy variant: delete the
Booking record by key, then find the weekday template entry with the
matching start (no flag check) and, when found, put it back with
available = True. -/
def cancelSlotOccCore (avail : List AvailItem) (bookings : List BookingItem)
    (doctor_id date start user_id : String) :
    Except PyExc (List AvailItem × List BookingItem) :=
  let pk := doctor_id ++ "#" ++ date
  let sk := start ++ "#" ++ user_id
  let bookings2 := ddbDeleteBooking bookings pk sk
  match parseDate date with
  | none => .error (.err ("time data " ++ date ++ " does not match format"))
  | some dt =>
    let apk := doctor_id ++ "#" ++ weekdayOf dt
    match (availQuery avail apk).find? (fun it => startOfSK it.SK == start) with
    | none => .ok (avail, bookings2)
    | some it => .ok (ddbPutAvail avail ⟨apk, it.SK, some true⟩, bookings2)

/-! ## MediLocker (src/.aws-sam/build/MediLockerLambda/main.py) -/

/-- An S3 object: key, decoded bytes, string metadata. -/
structure S3Obj where
  key : String
  body : List Nat
  metadata : List (String × String)
deriving DecidableEq, Repr

/-- Modelled from the library: s3.put_object (overwrites by key). -/
def s3Put (store : List S3Obj) (obj : S3Obj) : List S3Obj :=
  if store.any (fun o => o.key == obj.key) then
    store.map fun o => if o.key == obj.key then obj else o
  else store ++ [obj]

/-- A file of an upload request: filename, base64 content, metadata. -/
structure FileUpload where
  filename : String
  content : String
  metadata : List (String × String)
deriving DecidableEq, Repr

/-- The names already stored under the patient's prefix: for each listed
key, obj["Key"].split("/")[-1].  (The source builds a set; only
membership is consulted, so a list with the same members is faithful.) -/
def existingNamesOf (store : List S3Obj) (email : String) : List String :=
  (store.filter fun o => beginsWith (email ++ "/") o.key).map
    fun o => ⟨(splitChar '/' o.key.data).getLastD []⟩

/-- The per-file loop of upload_file: the collision check against the
pre-computed listing happens inside the loop, immediately before each
write, so files earlier in the batch are already written when a later
file collides (409) or fails to decode (400).  Returns the outcome
together with the store as mutated so far. -/
def uploadLoop (email : String) (existing : List String) :
    List FileUpload → List S3Obj → Except PyExc Unit × List S3Obj
  | [], store => (.ok (), store)
  | f :: fs, store =>
    if f.filename ∈ existing then
      (.error (.http 409 "File with the same name already exists"), store)
    else
      match b64decode f.content with
      | none => (.error (.http 400 "Invalid base64 encoding"), store)
      | some bytes =>
        uploadLoop email existing fs
          (s3Put store ⟨email ++ "/" ++ f.filename, bytes, f.metadata⟩)

/-- Embedding of upload_file, body inside the try block. -/
def uploadFileCore (store : List S3Obj) (email : String) (files : List FileUpload) :
    Except PyExc String × List S3Obj :=
  let existing := existingNamesOf store email
  match uploadLoop email existing files store with
  | (.ok _, st) => (.ok "Files uploaded successfully", st)
  | (.error e, st) => (.error e, st)

/-- The upload_file handler: its except block has no HTTPException
re-raise clause, so the deliberate 409/400 reach the caller as 500. -/
def upload_file (store : List S3Obj) (email : String) (files : List FileUpload) :
    Except HttpErr String × List S3Obj :=
  let r := uploadFileCore store email files
  (wrapAll r.1, r.2)

/-- Embedding of delete_file, body inside the outer try block: head_object
raises a ClientError 404 for a missing key, which the inner except
converts to a deliberate HTTPException 404 "File not found"; an existing
key is deleted. -/
def deleteFileCore (store : List S3Obj) (email filename : String) :
    Except PyExc String × List S3Obj :=
  let key := email ++ "/" ++ filename
  if store.any (fun o => o.key == key) then
    (.ok "File deleted successfully", store.filter fun o => !(o.key == key))
  else
    (.error (.http 404 "File not found"), store)

/-- The delete_file handler: the outer except Exception block also
catches the deliberate 404 and converts it to a 500. -/
def delete_file (store : List S3Obj) (email filename : String) :
    Except HttpErr String × List S3Obj :=
  let r := deleteFileCore store email filename
  (wrapAll r.1, r.2)

/-! ## Authentication service (src/.aws-sam/build/AuthLambda/main.py)

bcrypt is modelled by a pair of caller-supplied functions hashp (hashpw
with a fresh salt) and checkp (checkpw); the token table and the outbound
verification email are summarised by a sendOk flag — the record write
happens before the email is attempted, exactly as in the source. -/

/-- Modelled from the library: DynamoDB get_item on a table keyed by the
email attribute. -/
def dtableGet (tbl : List ARec) (em : String) : Option ARec :=
  tbl.find? fun r => alGet r "email" == some (.str em)

/-- Modelled from the library: DynamoDB put_item keyed by email. -/
def dtablePut (tbl : List ARec) (r : ARec) : List ARec :=
  if tbl.any (fun r2 => alGet r2 "email" == alGet r "email") then
    tbl.map fun r2 => if alGet r2 "email" == alGet r "email" then r else r2
  else tbl ++ [r]

/-- Replace the first record matching p (DynamoDB update_item on a
key-unique table). -/
def replaceFirst (tbl : List ARec) (p : ARec → Bool) (newRec : ARec) : List ARec :=
  match tbl with
  | [] => []
  | r :: rs => if p r then newRec :: rs else r :: replaceFirst rs p newRec

/-- The item doctor_signup writes: note the name is stored under the
field "doctorname". -/
def doctorRecordOf (hashp : String → String)
    (doctorname email phoneNumber password : String) (location : Option String) : ARec :=
  [("email", .str email), ("doctorname", .str doctorname),
   ("phoneNumber", .str phoneNumber),
   ("location", match location with | some l => AttrVal.str l | none => AttrVal.null),
   ("password", .str (hashp password)), ("emailVerified", .bool false),
   ("onboarded", .bool false)]

/-- Embedding of doctor_signup: reject an existing email with 400; write
the doctor record; then issue the verification token and send the email
(sendOk = false models a delivery failure, which aborts with 500 but
leaves the record written). -/
def doctor_signup (hashp : String → String) (sendOk : Bool) (doctors : List ARec)
    (doctorname email phoneNumber password : String) (location : Option String) :
    Except HttpErr String × List ARec :=
  match dtableGet doctors email with
  | some _ => (.error (400, "Email already registered"), doctors)
  | none =>
    let doctors2 := dtablePut doctors
      (doctorRecordOf hashp doctorname email phoneNumber password location)
    if sendOk then
      (.ok "Doctor registered. Please complete profile setup.", doctors2)
    else
      (.error (500, "Failed to send email"), doctors2)

/-- Embedding of doctor_login, body inside the try block: missing doctor
and wrong password are deliberate 400s; on success the response is built
from doctor["name"] and doctor["email"] — doctor["name"] raises KeyError
on records written by doctor_signup, which store "doctorname". -/
def doctorLoginCore (checkp : String → String → Bool) (doctors : List ARec)
    (email password : String) : Except PyExc ARec :=
  match dtableGet doctors email with
  | none => .error (.http 400 "Doctor not found")
  | some doctor =>
    match alGet doctor "password" with
    | some (.str hashed) =>
      if !(checkp password hashed) then .error (.http 400 "Incorrect password")
      else
        match alGet doctor "name" with
        | none => .error (.keyError "name")
        | some nv =>
          match alGet doctor "email" with
          | none => .error (.keyError "email")
          | some ev => .ok [("name", nv), ("email", ev)]
    | some _ => .error (.err "TypeError")
    | none => .error (.keyError "password")

/-- The doctor_login handler: HTTPException re-raised, anything else
becomes a 500 whose detail is str(e). -/
def doctor_login (checkp : String → String → Bool) (doctors : List ARec)
    (email password : String) : Except HttpErr ARec :=
  wrapHttp (doctorLoginCore checkp doctors email password)

/-! ## Doctor profile service (src/doctorsService/main.py) -/

def BUCKET : String := "kokoro-doctor-documents"

/-- The public object URL the service stores for an uploaded document. -/
def bucketUrl (key : String) : String :=
  "https://" ++ BUCKET ++ ".s3.amazonaws.com/" ++ key

/-- Uppercase hex digit. -/
def hexDigit (n : Nat) : Char :=
  if n < 10 then Char.ofNat (48 + n) else Char.ofNat (55 + n)

/-- Modelled from the library: urllib.parse.quote on ASCII input
(default safe set: unreserved characters plus the slash). -/
def quoteChar (c : Char) : List Char :=
  if ('A' ≤ c ∧ c ≤ 'Z') ∨ ('a' ≤ c ∧ c ≤ 'z') ∨ ('0' ≤ c ∧ c ≤ '9') ∨
      c ∈ ['_', '.', '-', '~', '/'] then [c]
  else ['%', hexDigit (c.toNat / 16 % 16), hexDigit (c.toNat % 16)]

def urlQuote (s : String) : String := ⟨s.data.foldr (fun c acc => quoteChar c ++ acc) []⟩

/-- Fuel-bounded replace-all on character lists. -/
def replAllAux : Nat → List Char → List Char → List Char → List Char
  | 0, _, _, s => s
  | _ + 1, _, _, [] => []
  | fuel + 1, pat, rep, c :: cs =>
    if pat ≠ [] ∧ chPref pat (c :: cs) then
      rep ++ replAllAux fuel pat rep ((c :: cs).drop pat.length)
    else c :: replAllAux fuel pat rep cs

/-- Models Python str.replace(pat, rep): replaces every non-overlapping
occurrence, left to right. -/
def pyReplace (s pat rep : String) : String :=
  ⟨replAllAux s.data.length pat.data rep.data s.data⟩

/-- Embedding of upload_doc_to_s3: the object key namespaces the doctor's
email and the document type, with the filename percent-quoted; the body
is the base64-decoded content (a decode failure propagates as an
exception); the stored URL is the public bucket URL of the key.
(Content-type inference is not modelled; no claim concerns it.) -/
def upload_doc_to_s3 (s3 : List S3Obj) (email doc_type filename b64c : String) :
    Except PyExc (String × List S3Obj) :=
  let key := "doctors/" ++ email ++ "/" ++ doc_type ++ "/" ++ urlQuote filename
  match b64decode b64c with
  | none => .error (.err "Invalid base64-encoded string")
  | some bytes => .ok (bucketUrl key, s3Put s3 ⟨key, bytes, []⟩)

/-- A document supplied to the profile update. -/
structure UploadDoc where
  filename : String
  base64_content : String
deriving DecidableEq, Repr

/-- The DoctorProfileUpdate request model. -/
structure DoctorProfileUpdate where
  email : String
  specialization : Option String
  experience : Option String
  fees : Option Int
  timings : Option String
  licenseNumber : Option String
  registrationId : Option String
  affiliation : Option String
  degreeCertificate : Option UploadDoc
  govtIdProof : Option UploadDoc
  profilePhoto : Option UploadDoc
deriving DecidableEq, Repr

/-- A singleton update entry for a supplied optional field. -/
def optEntry (k : String) (v : Option AttrVal) : List (String × AttrVal) :=
  match v with
  | some a => [(k, a)]
  | none => []

/-- The SET expression complete_doctor_profile builds: the supplied
profile fields in field_map order, then the uploaded document URLs, then
— unconditionally — onboarded = true. -/
def profileUpdates (inp : DoctorProfileUpdate)
    (degUrl govUrl phoUrl : Option String) : List (String × AttrVal) :=
  optEntry "specialization" (inp.specialization.map .str) ++
  optEntry "experience" (inp.experience.map .str) ++
  optEntry "fees" (inp.fees.map .int) ++
  optEntry "timings" (inp.timings.map .str) ++
  optEntry "licenseNumber" (inp.licenseNumber.map .str) ++
  optEntry "registrationId" (inp.registrationId.map .str) ++
  optEntry "affiliation" (inp.affiliation.map .str) ++
  optEntry "degreeCertificate" (degUrl.map .str) ++
  optEntry "govtIdProof" (govUrl.map .str) ++
  optEntry "profilePhoto" (phoUrl.map .str) ++
  [("onboarded", .bool true)]

/-- Apply a SET expression to a record. -/
def applyUpdates (r : ARec) (updates : List (String × AttrVal)) : ARec :=
  updates.foldl (fun r2 kv => alSet r2 kv.1 kv.2) r

/-- The tail of complete_doctor_profile once the documents are uploaded:
build the SET expression and apply it.  The emptiness check mirrors the
source; it can never fire because profileUpdates always ends with
onboarded = true. -/
def finishProfile (doctors : List ARec) (doctor : ARec)
    (inp : DoctorProfileUpdate) (degUrl govUrl phoUrl : Option String)
    (s3c : List S3Obj) : Except PyExc (List ARec × List S3Obj) :=
  let updates := profileUpdates inp degUrl govUrl phoUrl
  if updates.isEmpty then
    .error (.http 400 "No fields provided to update.")
  else
    .ok (replaceFirst doctors
      (fun r => alGet r "email" == some (.str inp.email))
      (applyUpdates doctor updates), s3c)

/-- Third upload stage: the optional profile photo. -/
def profileStagePho (doctors : List ARec) (doctor : ARec)
    (inp : DoctorProfileUpdate) (degUrl govUrl : Option String)
    (s3b : List S3Obj) : Except PyExc (List ARec × List S3Obj) :=
  match inp.profilePhoto with
  | none => finishProfile doctors doctor inp degUrl govUrl none s3b
  | some dd =>
    match upload_doc_to_s3 s3b inp.email "profilePhoto" dd.filename
        dd.base64_content with
    | .error e => .error e
    | .ok (url, s3c) => finishProfile doctors doctor inp degUrl govUrl (some url) s3c

/-- Second upload stage: the optional government id proof. -/
def profileStageGov (doctors : List ARec) (doctor : ARec)
    (inp : DoctorProfileUpdate) (degUrl : Option String)
    (s3a : List S3Obj) : Except PyExc (List ARec × List S3Obj) :=
  match inp.govtIdProof with
  | none => profileStagePho doctors doctor inp degUrl none s3a
  | some dd =>
    match upload_doc_to_s3 s3a inp.email "govtIdProof" dd.filename
        dd.base64_content with
    | .error e => .error e
    | .ok (url, s3b) => profileStagePho doctors doctor inp degUrl (some url) s3b

/-- Embedding of complete_doctor_profile, body inside the try block:
404 when the doctor record is absent; upload each supplied document in
source order; build the SET expression — onboarded = true is appended
before the emptiness check, so the 400 "No fields provided to update."
is unreachable — and update the record. -/
def completeDoctorProfileCore (doctors : List ARec) (s3 : List S3Obj)
    (inp : DoctorProfileUpdate) : Except PyExc (List ARec × List S3Obj) :=
  match dtableGet doctors inp.email with
  | none => .error (.http 404 "Doctor not found. Please sign up first.")
  | some doctor =>
    match inp.degreeCertificate with
    | none => profileStageGov doctors doctor inp none s3
    | some dd =>
      match upload_doc_to_s3 s3 inp.email "degreeCertificate" dd.filename
          dd.base64_content with
      | .error e => .error e
      | .ok (url, s3a) => profileStageGov doctors doctor inp (some url) s3a

/-- The updateProfile handler (HTTPException re-raised, otherwise 500). -/
def complete_doctor_profile (doctors : List ARec) (s3 : List S3Obj)
    (inp : DoctorProfileUpdate) : Except HttpErr (List ARec × List S3Obj) :=
  wrapHttp (completeDoctorProfileCore doctors s3 inp)

/-- The three document-URL fields rewritten by fetchDoctors. -/
def urlFields : List String := ["profilePhoto", "degreeCertificate", "govtIdProof"]

/-- One step of the fetchDoctors rewrite: when the field is present and
truthy, strip the public bucket URL from its string value and replace the
field with the presigned URL for the resulting key (None — null — when
signing fails or the value is not a string). -/
def fetchTransformField (sign : String → Option String) (doc : ARec)
    (field : String) : ARec :=
  match alGet doc field with
  | none => doc
  | some v =>
    if pyTruthy v then
      match v with
      | .str s =>
        match sign (pyReplace s (bucketUrl "") "") with
        | some u => alSet doc field (.str u)
        | none => alSet doc field .null
      | _ => alSet doc field .null
    else doc

/-- The per-record rewrite of get_all_doctors. -/
def transformDoc (sign : String → Option String) (doc : ARec) : ARec :=
  urlFields.foldl (fetchTransformField sign) doc

/-- Embedding of get_all_doctors: scan the doctors table and rewrite the
three document-URL fields of every record; all other attributes —
including password and emailVerified — are returned verbatim.  sign
models generate_presigned_url (none on signing failure). -/
def get_all_doctors (sign : String → Option String) (doctors : List ARec) :
    List ARec :=
  doctors.map (transformDoc sign)

/-! ## Conversational assistant (src/chat/main.py) -/

/-- A row of the chat-history table.  The source stores the two texts as
json.dumps of small role/text records; only the texts are modelled. -/
structure ChatItem where
  email : String
  timestamp : Int
  user_text : String
  bot_text : String
deriving DecidableEq, Repr

/-- The observed outcome of an outbound HTTP call: a reply (status code
and the "response" field of the JSON body, none when the key is absent),
a transport-level exception (requests.exceptions.RequestException,
covering timeouts), or any other exception (e.g. a JSON decode failure,
or an unconfigured endpoint URL). -/
inductive CallOut where
  | resp (status : Nat) (responseField : Option String)
  | reqExn (msg : String)
  | otherExn (msg : String)
deriving DecidableEq, Repr

/-- Embedding of call_llm_api: a non-200 backend reply raises a 502
inside the function's own try block, where the bare except Exception
clause catches it and re-raises 500 "Unknown error"; a transport
exception becomes 503 "LLM request failed"; any other exception becomes
500 "Unknown error"; a 200 reply yields the "response" field (with the
source's default text when absent). -/
def call_llm_api (llm : CallOut) : Except PyExc String :=
  match llm with
  | .resp status responseField =>
    if status = 200 then .ok (responseField.getD "No response from model.")
    else .error (.http 500 "Unknown error")
  | .reqExn _ => .error (.http 503 "LLM request failed")
  | .otherExn _ => .error (.http 500 "Unknown error")

/-- Embedding of store_message: appends the turn; storage failures are
swallowed by the source, so the operation is modelled as always
succeeding. -/
def store_message (tbl : List ChatItem) (email user_text bot_text : String)
    (ts : Int) : List ChatItem :=
  tbl ++ [⟨email, ts, user_text, bot_text⟩]

/-- The language-model fallback tail of the chat handler: call the
backend, store the turn, return the text. -/
def chatFallback (tbl : List ChatItem) (user_id message : String)
    (llm : CallOut) (ts : Int) : Except PyExc (String × List ChatItem) :=
  match call_llm_api llm with
  | .error e => .error e
  | .ok ai => .ok (ai, store_message tbl user_id message ai ts)

/-- Embedding of the chat handler: reject blank messages with 400; try
the retrieval service — accept its answer only on HTTP 200 with a
stripped "response" field that is non-empty and not the sentinel "none"
(case-insensitive), storing and returning it without consulting the
language model; on any other retrieval outcome, including exceptions
(swallowed and logged), fall back to the language-model tail. -/
def chat (tbl : List ChatItem) (user_id message : String) (rag llm : CallOut)
    (ts : Int) : Except PyExc (String × List ChatItem) :=
  if pyStrip message = "" then .error (.http 400 "Message is required")
  else
    let ragAccept : Option String :=
      match rag with
      | .resp status responseField =>
        if status = 200 then
          let t := pyStrip (responseField.getD "")
          if t ≠ "" ∧ pyLower t ≠ "none" then some t else none
        else none
      | .reqExn _ => none
      | .otherExn _ => none
    match ragAccept with
    | some t => .ok (t, store_message tbl user_id message t ts)
    | none => chatFallback tbl user_id message llm ts

/-! ## Claim C1 -/

/-- C1: the claim fails on the code.  A doctor record created by
doctor_signup stores the name under "doctorname", but doctor_login builds
its response from doctor["name"]: with the correct password, the login
raises KeyError("name"), which the handler converts to a 500 whose
detail is str(KeyError) = "'name'" — it does not succeed and does not
return the name and email.  bcrypt is instantiated with a concrete
hash/check pair agreeing on the correct password. -/
theorem C1_code_bug_thm :
    doctor_signup (fun s => "h$" ++ s) true [] "Dr. Asha" "a@x.com" "99" "pw" none =
      (.ok "Doctor registered. Please complete profile setup.",
       [[("email", AttrVal.str "a@x.com"), ("doctorname", AttrVal.str "Dr. Asha"),
         ("phoneNumber", AttrVal.str "99"), ("location", AttrVal.null),
         ("password", AttrVal.str "h$pw"), ("emailVerified", AttrVal.bool false),
         ("onboarded", AttrVal.bool false)]]) ∧
    doctor_login (fun p h => h == "h$" ++ p)
      [[("email", AttrVal.str "a@x.com"), ("doctorname", AttrVal.str "Dr. Asha"),
        ("phoneNumber", AttrVal.str "99"), ("location", AttrVal.null),
        ("password", AttrVal.str "h$pw"), ("emailVerified", AttrVal.bool false),
        ("onboarded", AttrVal.bool false)]] "a@x.com" "pw" =
      .error (500, "'name'") := by
  exact ⟨by decide, by decide⟩

/-! ## Claim C2 -/

/-- C2: the claim fails on the code.  The deliberately raised
business-rule failures do not reach the caller with their declared status:
the capacity-model book_slot and the MediLocker handlers wrap their bodies
in a bare except Exception block with no HTTPException re-raise clause,
so the deliberate 404 (delete of a missing file), 409 (duplicate
filename), 400 (malformed base64) and 400 (duplicate booking) are all
converted to 500 with the original exception text embedded in the
detail. -/
theorem C2_code_bug_thm :
    delete_file [] "p@x" "r.pdf" = (.error (500, "404: File not found"), []) ∧
    upload_file [⟨"p@x/r.pdf", [65], []⟩] "p@x" [⟨"r.pdf", "QUJD", []⟩] =
      (.error (500, "409: File with the same name already exists"),
       [⟨"p@x/r.pdf", [65], []⟩]) ∧
    upload_file [] "p@x" [⟨"a.txt", "QQ", []⟩] =
      (.error (500, "400: Invalid base64 encoding"), []) ∧
    book_slot_cap
      [⟨"doc#2025-01-06", "09:00#u1", "doc", "2025-01-06", "09:00", "u1",
        some 1736726400⟩] "doc" "2025-01-06" "09:00" "u1" =
      .error (500, "400: User already booked") := by
  refine ⟨by decide, by decide, by decide, by decide⟩

/-! ## Claim C6 -/

/-- C6: the claim holds for the capacity variant — the Booking record
carries ttl = epoch seconds of the booked date plus 7 days
(2025-01-06 + 7 days = 1736726400) — but fails for the occupancy variant:
its book_slot computes the same expiry and then omits ttl from the item
it writes, so the stored record has no ttl attribute. -/
theorem C6_code_bug_thm :
    bookSlotCapCore [] "doc" "2025-01-06" "09:00" "u1" =
      .ok [⟨"doc#2025-01-06", "09:00#u1", "doc", "2025-01-06", "09:00", "u1",
            some 1736726400⟩] ∧
    (1736726400 : Int) = (epochDays (2025, 1, 6) + 7) * 86400 ∧
    bookSlotOccCore [⟨"doc#Monday", "09:00-09:30", some true⟩] []
      "doc" "2025-01-06" "09:00" "u1" =
      .ok ([⟨"doc#Monday", "09:00-09:30", some false⟩],
           [⟨"doc#2025-01-06", "09:00#u1", "doc", "2025-01-06", "09:00", "u1",
             none⟩]) := by
  refine ⟨by decide, by decide, by decide⟩

/-! ## Claim C4 -/

/-- C4 counterexample: the collision check runs inside the write loop,
not before any write.  Uploading the batch [x.txt, report.pdf] to a vault
already holding report.pdf writes x.txt first and only then fails on the
collision (whose deliberate 409 the wrapper converts to a 500): the
object store is left changed, contrary to the claim. -/
theorem C4_counterexample :
    upload_file [⟨"p@x/report.pdf", [1, 2], []⟩] "p@x"
      [⟨"x.txt", "QUJD", []⟩, ⟨"report.pdf", "QUJD", []⟩] =
      (.error (500, "409: File with the same name already exists"),
       [⟨"p@x/report.pdf", [1, 2], []⟩, ⟨"p@x/x.txt", [65, 66, 67], []⟩]) ∧
    (upload_file [⟨"p@x/report.pdf", [1, 2], []⟩] "p@x"
      [⟨"x.txt", "QUJD", []⟩, ⟨"report.pdf", "QUJD", []⟩]).2 ≠
      [⟨"p@x/report.pdf", [1, 2], []⟩] := by
  refine ⟨by decide, by decide⟩

/-! ## Claim C8 -/

/-- C8 counterexample: an update-profile call on an existing doctor with
no profile fields and no documents does not fail with InvalidInput — the
handler unconditionally appends onboarded = true to the SET expression
before the emptiness check, so the call succeeds and merely marks the
record onboarded. -/
theorem C8_counterexample :
    complete_doctor_profile [[("email", AttrVal.str "doc@x.com"),
        ("password", AttrVal.str "h")]] []
      ⟨"doc@x.com", none, none, none, none, none, none, none, none, none, none⟩ =
      .ok ([[("email", AttrVal.str "doc@x.com"), ("password", AttrVal.str "h"),
             ("onboarded", AttrVal.bool true)]], []) ∧
    complete_doctor_profile [[("email", AttrVal.str "doc@x.com"),
        ("password", AttrVal.str "h")]] []
      ⟨"doc@x.com", none, none, none, none, none, none, none, none, none, none⟩ ≠
      .error (400, "No fields provided to update.") := by
  refine ⟨by decide, by decide⟩

/-! ## Claim C3 -/

theorem str_append_assoc (a b c : String) : (a ++ b) ++ c = a ++ (b ++ c) := by
  cases a; cases b; cases c
  exact congrArg String.mk (by simp [data_append_eq])

theorem beginsWith_hash (s u : String) : beginsWith s ((s ++ "#") ++ u) = true := by
  rw [str_append_assoc]; exact beginsWith_append ..

/-- The Booking record the capacity-model book_slot writes for
(doctor, date, start, user). -/
def capBookingRec (doctor_id date start user_id : String) (dt : Date) : BookingItem :=
  ⟨doctor_id ++ "#" ++ date, (start ++ "#") ++ user_id, doctor_id, date, start,
   user_id, some ((epochDays dt + 7) * 86400)⟩

theorem slotQuery_recs (d date s : String) (dt : Date) (st0 : List BookingItem)
    (h0 : slotQuery st0 (d ++ "#" ++ date) s = []) (us : List String) :
    slotQuery (st0 ++ us.map fun w => capBookingRec d date s w dt)
      (d ++ "#" ++ date) s = us.map fun w => capBookingRec d date s w dt := by
  unfold slotQuery at h0 ⊢
  rw [List.filter_append, h0, List.nil_append]
  rw [List.filter_eq_self]
  intro b hb
  obtain ⟨w, hw, rfl⟩ := List.mem_map.mp hb
  simp [capBookingRec, beginsWith_hash]

theorem capRec_key_fresh (d date s : String) (dt : Date) (st0 : List BookingItem)
    (h0 : slotQuery st0 (d ++ "#" ++ date) s = []) (us : List String) (u : String)
    (hu : u ∉ us) :
    ((st0 ++ us.map fun w => capBookingRec d date s w dt).any fun b =>
      b.PK == (d ++ "#" ++ date) && b.SK == ((s ++ "#") ++ u)) = false := by
  rw [List.any_eq_false]
  intro b hb hkey
  rw [Bool.and_eq_true, beq_iff_eq, beq_iff_eq] at hkey
  obtain ⟨hpk, hsk⟩ := hkey
  rcases List.mem_append.mp hb with hb0 | hbm
  · have hbq : b ∈ slotQuery st0 (d ++ "#" ++ date) s := by
      unfold slotQuery
      rw [List.mem_filter]
      refine ⟨hb0, ?_⟩
      have hsk2 : b.SK = (s ++ "#") ++ u := hsk
      simp [hpk, hsk2, beginsWith_hash, capBookingRec]
    rw [h0] at hbq
    exact absurd hbq (List.not_mem_nil b)
  · obtain ⟨w, hw, rfl⟩ := List.mem_map.mp hbm
    have hsk2 : (s ++ "#") ++ w = (s ++ "#") ++ u := hsk
    exact hu (string_append_right_inj hsk2 ▸ hw)

theorem bookCapStep (d date s : String) (dt : Date)
    (hdt : parseDate date = some dt)
    (st0 : List BookingItem) (h0 : slotQuery st0 (d ++ "#" ++ date) s = [])
    (us : List String) (u : String) (hu : u ∉ us) (hlen : us.length < 5) :
    bookSlotCapCore (st0 ++ us.map fun w => capBookingRec d date s w dt)
      d date s u =
      .ok (st0 ++ (us ++ [u]).map fun w => capBookingRec d date s w dt) := by
  have husers :
      ((slotQuery (st0 ++ us.map fun w => capBookingRec d date s w dt)
        (d ++ "#" ++ date) s).map fun b => b.user_id) = us := by
    rw [slotQuery_recs d date s dt st0 h0 us, List.map_map]
    have hfun : ((fun b => b.user_id) ∘ fun w => capBookingRec d date s w dt) =
        fun w => w := by funext w; rfl
    rw [hfun, List.map_id']
  unfold bookSlotCapCore
  simp only [husers]
  rw [if_neg hu, if_neg (by omega : ¬ 5 ≤ us.length), hdt]
  unfold ddbPutBooking
  dsimp only
  rw [capRec_key_fresh d date s dt st0 h0 us u hu]
  simp only [Bool.false_eq_true, if_false, List.map_append, List.map_cons,
    List.map_nil, List.append_assoc]
  rfl

theorem slotUsers_recs (d date s : String) (dt : Date) (st0 : List BookingItem)
    (h0 : slotQuery st0 (d ++ "#" ++ date) s = []) (us : List String) :
    ((slotQuery (st0 ++ us.map fun w => capBookingRec d date s w dt)
      (d ++ "#" ++ date) s).map fun b => b.user_id) = us := by
  rw [slotQuery_recs d date s dt st0 h0 us, List.map_map]
  have hfun : ((fun b => b.user_id) ∘ fun w => capBookingRec d date s w dt) =
      fun w => w := by funext w; rfl
  rw [hfun, List.map_id']

theorem bookCapDup (d date s : String) (dt : Date) (st0 : List BookingItem)
    (h0 : slotQuery st0 (d ++ "#" ++ date) s = []) (us : List String) (u : String)
    (hu : u ∈ us) :
    bookSlotCapCore (st0 ++ us.map fun w => capBookingRec d date s w dt)
      d date s u = .error (.http 400 "User already booked") := by
  unfold bookSlotCapCore
  simp only [slotUsers_recs d date s dt st0 h0 us]
  rw [if_pos hu]

theorem bookCapFull (d date s : String) (dt : Date) (st0 : List BookingItem)
    (h0 : slotQuery st0 (d ++ "#" ++ date) s = []) (us : List String) (u : String)
    (hu : u ∉ us) (hlen : 5 ≤ us.length) :
    bookSlotCapCore (st0 ++ us.map fun w => capBookingRec d date s w dt)
      d date s u = .error (.http 400 "Slot full") := by
  unfold bookSlotCapCore
  simp only [slotUsers_recs d date s dt st0 h0 us]
  rw [if_neg hu, if_pos hlen]

/-- C3: the capacity-model booking semantics, for every
(doctor, date, start) slot that starts empty: five bookings by five
distinct patients succeed in sequence, each appending exactly one Booking
record; after that, a repeat booking by any of the five fails with the
deliberate AlreadyBooked error (400 "User already booked"), and a sixth
distinct patient fails with the deliberate SlotUnavailable error
(400 "Slot full"); the weekly availability template is never touched
(shown on the full two-table state for the first booking; the handler
body never references the availability table). -/
theorem C3_thm (d date s u1 u2 u3 u4 u5 u6 : String) (dt : Date)
    (hdt : parseDate date = some dt) (avail : List AvailItem)
    (st0 : List BookingItem)
    (h0 : slotQuery st0 (d ++ "#" ++ date) s = [])
    (hnd : [u1, u2, u3, u4, u5, u6].Nodup) :
    bookSlotCapCore st0 d date s u1 =
      .ok (st0 ++ List.map (fun w => capBookingRec d date s w dt) [u1]) ∧
    bookSlotCapCore (st0 ++ List.map (fun w => capBookingRec d date s w dt) [u1])
      d date s u2 =
      .ok (st0 ++ List.map (fun w => capBookingRec d date s w dt) [u1, u2]) ∧
    bookSlotCapCore
      (st0 ++ List.map (fun w => capBookingRec d date s w dt) [u1, u2])
      d date s u3 =
      .ok (st0 ++ List.map (fun w => capBookingRec d date s w dt) [u1, u2, u3]) ∧
    bookSlotCapCore
      (st0 ++ List.map (fun w => capBookingRec d date s w dt) [u1, u2, u3])
      d date s u4 =
      .ok (st0 ++ List.map (fun w => capBookingRec d date s w dt) [u1, u2, u3, u4]) ∧
    bookSlotCapCore
      (st0 ++ List.map (fun w => capBookingRec d date s w dt) [u1, u2, u3, u4])
      d date s u5 =
      .ok (st0 ++ List.map (fun w => capBookingRec d date s w dt)
        [u1, u2, u3, u4, u5]) ∧
    bookSlotCapCore
      (st0 ++ List.map (fun w => capBookingRec d date s w dt) [u1, u2, u3, u4, u5])
      d date s u1 = .error (.http 400 "User already booked") ∧
    bookSlotCapCore
      (st0 ++ List.map (fun w => capBookingRec d date s w dt) [u1, u2, u3, u4, u5])
      d date s u2 = .error (.http 400 "User already booked") ∧
    bookSlotCapCore
      (st0 ++ List.map (fun w => capBookingRec d date s w dt) [u1, u2, u3, u4, u5])
      d date s u3 = .error (.http 400 "User already booked") ∧
    bookSlotCapCore
      (st0 ++ List.map (fun w => capBookingRec d date s w dt) [u1, u2, u3, u4, u5])
      d date s u4 = .error (.http 400 "User already booked") ∧
    bookSlotCapCore
      (st0 ++ List.map (fun w => capBookingRec d date s w dt) [u1, u2, u3, u4, u5])
      d date s u5 = .error (.http 400 "User already booked") ∧
    bookSlotCapCore
      (st0 ++ List.map (fun w => capBookingRec d date s w dt) [u1, u2, u3, u4, u5])
      d date s u6 = .error (.http 400 "Slot full") ∧
    bookSlotCapState ⟨avail, st0⟩ d date s u1 =
      .ok ⟨avail, st0 ++ List.map (fun w => capBookingRec d date s w dt) [u1]⟩ := by
  simp only [List.nodup_cons, List.mem_cons, List.mem_singleton, List.not_mem_nil,
    or_false, not_or, List.nodup_nil, and_true] at hnd
  obtain ⟨⟨h12, h13, h14, h15, h16⟩, ⟨h23, h24, h25, h26⟩, ⟨h34, h35, h36⟩,
    ⟨h45, h46⟩, h56, -⟩ := hnd
  have s1 := bookCapStep d date s dt hdt st0 h0 [] u1 (by simp) (by simp)
  have s2 := bookCapStep d date s dt hdt st0 h0 [u1] u2
    (by simp [Ne.symm h12]) (by simp)
  have s3 := bookCapStep d date s dt hdt st0 h0 [u1, u2] u3
    (by simp [Ne.symm h13, Ne.symm h23]) (by simp)
  have s4 := bookCapStep d date s dt hdt st0 h0 [u1, u2, u3] u4
    (by simp [Ne.symm h14, Ne.symm h24, Ne.symm h34]) (by simp)
  have s5 := bookCapStep d date s dt hdt st0 h0 [u1, u2, u3, u4] u5
    (by simp [Ne.symm h15, Ne.symm h25, Ne.symm h35, Ne.symm h45]) (by simp)
  simp only [List.map_nil, List.append_nil] at s1
  refine ⟨s1, s2, s3, s4, s5, ?_, ?_, ?_, ?_, ?_, ?_, ?_⟩
  · exact bookCapDup d date s dt st0 h0 [u1, u2, u3, u4, u5] u1 (by simp)
  · exact bookCapDup d date s dt st0 h0 [u1, u2, u3, u4, u5] u2 (by simp)
  · exact bookCapDup d date s dt st0 h0 [u1, u2, u3, u4, u5] u3 (by simp)
  · exact bookCapDup d date s dt st0 h0 [u1, u2, u3, u4, u5] u4 (by simp)
  · exact bookCapDup d date s dt st0 h0 [u1, u2, u3, u4, u5] u5 (by simp)
  · exact bookCapFull d date s dt st0 h0 [u1, u2, u3, u4, u5] u6
      (by simp [Ne.symm h16, Ne.symm h26, Ne.symm h36, Ne.symm h46, Ne.symm h56])
      (by simp)
  · unfold bookSlotCapState
    rw [s1]
    rfl

/-- Witness for C3 at concrete inputs: the first booking from an empty
slot succeeds and the sixth distinct patient is refused. -/
theorem C3_witness :
    bookSlotCapCore [] "d1" "2025-01-06" "09:00" "u1" =
      .ok [capBookingRec "d1" "2025-01-06" "09:00" "u1" (2025, 1, 6)] ∧
    bookSlotCapCore
      (List.map (fun w => capBookingRec "d1" "2025-01-06" "09:00" w (2025, 1, 6))
        ["u1", "u2", "u3", "u4", "u5"]) "d1" "2025-01-06" "09:00" "u6" =
      .error (.http 400 "Slot full") := by
  have h := C3_thm "d1" "2025-01-06" "09:00" "u1" "u2" "u3" "u4" "u5" "u6"
    (2025, 1, 6) (by decide) [] [] (by decide) (by decide)
  exact ⟨h.1, h.2.2.2.2.2.2.2.2.2.2.1⟩

/-! ## Claim C7 -/

/-- The template entries of a weekday partition whose encoded start time
matches: the entries the occupancy handlers scan for. -/
def availMatch (apk s : String) (avail : List AvailItem) : List AvailItem :=
  avail.filter fun a => a.PK == apk && startOfSK a.SK == s

theorem filterRepl_nil {α : Type} (p q : α → Bool) (new : α) (l : List α)
    (h : l.filter p = []) (himp : ∀ a ∈ l, q a = true → p a = true) :
    (l.map fun a => if q a then new else a).filter p = [] := by
  induction l with
  | nil => rfl
  | cons a l ih =>
    simp only [List.filter_cons] at h
    cases hpa : p a with
    | true => rw [hpa] at h; simp at h
    | false =>
      rw [hpa] at h
      simp only [Bool.false_eq_true, if_false] at h
      have hqa : q a = false := by
        cases hqa : q a with
        | false => rfl
        | true => exact absurd (himp a (by simp) hqa) (by simp [hpa])
      simp only [List.map_cons, List.filter_cons, hqa, Bool.false_eq_true,
        if_false, hpa]
      exact ih h fun b hb hq => himp b (by simp [hb]) hq

theorem filterRepl_single {α : Type} (p q : α → Bool) (new it0 : α) (l : List α)
    (h : l.filter p = [it0])
    (himp : ∀ a ∈ l, q a = true → p a = true)
    (hq0 : q it0 = true) (hpnew : p new = true)
    (huniq : ∀ a ∈ l, q a = true → a = it0) :
    (l.map fun a => if q a then new else a).filter p = [new] := by
  induction l with
  | nil => simp at h
  | cons a l ih =>
    simp only [List.filter_cons] at h
    cases hpa : p a with
    | true =>
      rw [hpa] at h
      simp only [if_true] at h
      have ha : a = it0 := (List.cons.injEq _ _ _ _ ▸ h).1
      have hrest : l.filter p = [] := (List.cons.injEq _ _ _ _ ▸ h).2
      subst ha
      simp only [List.map_cons, hq0, if_pos, List.filter_cons, hpnew, if_true]
      rw [filterRepl_nil p q new l hrest fun b hb hq => himp b (by simp [hb]) hq]
    | false =>
      rw [hpa] at h
      simp only [Bool.false_eq_true, if_false] at h
      have hqa : q a = false := by
        cases hqa : q a with
        | false => rfl
        | true =>
          have ha : a = it0 := huniq a (by simp) hqa
          have : it0 ∈ l.filter p := h ▸ List.mem_singleton_self it0
          have hp0 : p it0 = true := List.of_mem_filter this
          rw [ha] at hpa
          rw [hp0] at hpa
          exact absurd hpa (by simp)
      simp only [List.map_cons, hqa, Bool.false_eq_true, if_false,
        List.filter_cons, hpa]
      exact ih h (fun b hb hq => himp b (by simp [hb]) hq)
        (fun b hb hq => huniq b (by simp [hb]) hq)

theorem findOcc_nil (apk s : String) (g : AvailItem → Bool) (l : List AvailItem)
    (h : availMatch apk s l = []) :
    (availQuery l apk).find? (fun it => startOfSK it.SK == s && g it) = none := by
  induction l with
  | nil => rfl
  | cons a l ih =>
    unfold availMatch at h
    simp only [List.filter_cons] at h
    unfold availQuery
    simp only [List.filter_cons]
    cases hpk : (a.PK == apk) with
    | false =>
      rw [hpk] at h
      simp only [Bool.false_and, Bool.false_eq_true, if_false] at h ⊢
      exact ih h
    | true =>
      rw [hpk] at h
      simp only [Bool.true_and] at h
      cases hsm : (startOfSK a.SK == s) with
      | true => rw [hsm] at h; simp at h
      | false =>
        rw [hsm] at h
        simp only [Bool.false_eq_true, if_false] at h
        simp only [if_true, List.find?_cons, hsm, Bool.false_and]
        exact ih h

theorem findOcc (apk s : String) (g : AvailItem → Bool) (l : List AvailItem)
    (it0 : AvailItem) (h : availMatch apk s l = [it0]) :
    (availQuery l apk).find? (fun it => startOfSK it.SK == s && g it) =
      if g it0 then some it0 else none := by
  induction l with
  | nil => simp [availMatch] at h
  | cons a l ih =>
    unfold availMatch at h
    simp only [List.filter_cons] at h
    unfold availQuery
    simp only [List.filter_cons]
    cases hpk : (a.PK == apk) with
    | false =>
      rw [hpk] at h
      simp only [Bool.false_and, Bool.false_eq_true, if_false] at h ⊢
      exact ih h
    | true =>
      rw [hpk] at h
      simp only [Bool.true_and] at h
      cases hsm : (startOfSK a.SK == s) with
      | false =>
        rw [hsm] at h
        simp only [Bool.false_eq_true, if_false] at h
        simp only [if_true, List.find?_cons, hsm, Bool.false_and]
        exact ih h
      | true =>
        rw [hsm] at h
        simp only [if_true] at h
        have ha : a = it0 := (List.cons.injEq _ _ _ _ ▸ h).1
        have hrest : l.filter (fun a => a.PK == apk && startOfSK a.SK == s) = [] :=
          (List.cons.injEq _ _ _ _ ▸ h).2
        subst ha
        simp only [if_true, List.find?_cons, hsm, Bool.true_and]
        cases hg : g a with
        | true => rfl
        | false => exact findOcc_nil apk s g l hrest

theorem occ_key_fresh (d date s u : String) (bookings : List BookingItem)
    (hclean : slotQuery bookings (d ++ "#" ++ date) s = []) :
    (bookings.any fun b =>
      b.PK == (d ++ "#" ++ date) && b.SK == ((s ++ "#") ++ u)) = false := by
  rw [List.any_eq_false]
  intro b hb hkey
  rw [Bool.and_eq_true, beq_iff_eq, beq_iff_eq] at hkey
  obtain ⟨hpk, hsk⟩ := hkey
  have hbq : b ∈ slotQuery bookings (d ++ "#" ++ date) s := by
    unfold slotQuery
    rw [List.mem_filter]
    exact ⟨hb, by simp [hpk, hsk, beginsWith_hash]⟩
  rw [hclean] at hbq
  exact absurd hbq (List.not_mem_nil b)


theorem availMatch_put (apk s : String) (avail : List AvailItem) (it0 : AvailItem)
    (b : Bool) (hmatch : availMatch apk s avail = [it0]) :
    availMatch apk s (ddbPutAvail avail ⟨apk, it0.SK, some b⟩) =
      [⟨apk, it0.SK, some b⟩] := by
  have hmem0 : it0 ∈ avail.filter (fun a => a.PK == apk && startOfSK a.SK == s) := by
    unfold availMatch at hmatch
    rw [hmatch]
    exact List.mem_singleton_self it0
  have hp0 : (it0.PK == apk && startOfSK it0.SK == s) = true :=
    (List.mem_filter.mp hmem0).2
  rw [Bool.and_eq_true] at hp0
  obtain ⟨hpk0, hsm0⟩ := hp0
  have hany : (avail.any fun a => a.PK == apk && a.SK == it0.SK) = true := by
    rw [List.any_eq_true]
    exact ⟨it0, List.mem_of_mem_filter hmem0, by simp [hpk0]⟩
  unfold ddbPutAvail availMatch
  dsimp only
  rw [hany]
  simp only [if_true]
  exact filterRepl_single _ _ _ it0 avail hmatch
    (fun a ha hq => by
      rw [Bool.and_eq_true] at hq ⊢
      have hsk : a.SK = it0.SK := by
        have h2 := hq.2
        rwa [beq_iff_eq] at h2
      exact ⟨hq.1, by rw [hsk]; exact hsm0⟩)
    (by simp [hpk0])
    (by simp [hsm0])
    (fun a ha hq => by
      have hpa : (a.PK == apk && startOfSK a.SK == s) = true := by
        rw [Bool.and_eq_true] at hq ⊢
        have hsk : a.SK = it0.SK := by
          have h2 := hq.2
          rwa [beq_iff_eq] at h2
        exact ⟨hq.1, by rw [hsk]; exact hsm0⟩
      have hmem : a ∈ avail.filter (fun a => a.PK == apk && startOfSK a.SK == s) :=
        List.mem_filter.mpr ⟨ha, hpa⟩
      unfold availMatch at hmatch
      rw [hmatch] at hmem
      exact List.mem_singleton.mp hmem)

theorem bookOccFail (d date s u : String) (dt : Date) (it0 : AvailItem)
    (avail : List AvailItem) (bookings : List BookingItem)
    (hdt : parseDate date = some dt)
    (hmatch : availMatch (d ++ "#" ++ weekdayOf dt) s avail = [it0])
    (hflag : it0.available.getD true = false) :
    bookSlotOccCore avail bookings d date s u =
      .error (.http 400 "Slot is unavailable or does not exist.") := by
  unfold bookSlotOccCore
  rw [hdt]
  dsimp only
  rw [findOcc _ s _ avail it0 hmatch]
  simp [hflag]

theorem bookOccOk (d date s u : String) (dt : Date) (it0 : AvailItem)
    (avail : List AvailItem) (bookings : List BookingItem)
    (hdt : parseDate date = some dt)
    (hmatch : availMatch (d ++ "#" ++ weekdayOf dt) s avail = [it0])
    (hclean : slotQuery bookings (d ++ "#" ++ date) s = [])
    (hflag : it0.available.getD true = true) :
    bookSlotOccCore avail bookings d date s u =
      .ok (ddbPutAvail avail ⟨d ++ "#" ++ weekdayOf dt, it0.SK, some false⟩,
           bookings ++ [⟨d ++ "#" ++ date, (s ++ "#") ++ u, d, date, s, u, none⟩]) := by
  unfold bookSlotOccCore
  rw [hdt]
  dsimp only
  rw [findOcc _ s _ avail it0 hmatch]
  unfold ddbPutBooking
  rw [occ_key_fresh d date s u bookings hclean]
  simp [hflag, hclean]

theorem cancelOccOk (d date s u : String) (dt : Date) (it0 : AvailItem)
    (avail : List AvailItem) (bookings : List BookingItem)
    (hdt : parseDate date = some dt)
    (hmatch : availMatch (d ++ "#" ++ weekdayOf dt) s avail = [it0])
    (hclean : slotQuery bookings (d ++ "#" ++ date) s = []) :
    cancelSlotOccCore avail
      (bookings ++ [⟨d ++ "#" ++ date, (s ++ "#") ++ u, d, date, s, u, none⟩])
      d date s u =
      .ok (ddbPutAvail avail ⟨d ++ "#" ++ weekdayOf dt, it0.SK, some true⟩,
           bookings) := by
  unfold cancelSlotOccCore
  rw [hdt]
  dsimp only
  have hdel : ddbDeleteBooking
      (bookings ++ [⟨d ++ "#" ++ date, (s ++ "#") ++ u, d, date, s, u, none⟩])
      (d ++ "#" ++ date) ((s ++ "#") ++ u) = bookings := by
    unfold ddbDeleteBooking
    rw [List.filter_append]
    have hfr := occ_key_fresh d date s u bookings hclean
    rw [List.any_eq_false] at hfr
    have h1 : bookings.filter (fun b =>
        !(b.PK == (d ++ "#" ++ date) && b.SK == ((s ++ "#") ++ u))) = bookings := by
      rw [List.filter_eq_self]
      intro b hb
      cases hx : (b.PK == (d ++ "#" ++ date) && b.SK == ((s ++ "#") ++ u)) with
      | false => simp [hx]
      | true => exact absurd hx (hfr b hb)
    rw [h1]
    simp
  rw [hdel]
  have hfn : (fun it : AvailItem => startOfSK it.SK == s) =
      (fun it : AvailItem => startOfSK it.SK == s && true) := by
    funext it
    rw [Bool.and_true]
  rw [hfn, findOcc _ s (fun _ => true) avail it0 hmatch]
  simp

/-- C7: the occupancy-model booking semantics, for every
(doctor, date, start) whose weekday template holds exactly one entry with
that start time and whose bookings partition holds no booking for the
slot: a booking fails with SlotUnavailable when the entry's available
flag (read with default true) is false; when it is true the booking
succeeds, appending the Booking record and flipping the entry's flag to
false; after that, a second booking attempt by any patient fails with
SlotUnavailable; cancelling deletes the Booking record and flips the flag
back to true, after which any patient can book the slot again. -/
theorem C7_thm (d date s u u2 : String) (dt : Date) (it0 : AvailItem)
    (avail : List AvailItem) (bookings : List BookingItem)
    (hdt : parseDate date = some dt)
    (hmatch : availMatch (d ++ "#" ++ weekdayOf dt) s avail = [it0])
    (hclean : slotQuery bookings (d ++ "#" ++ date) s = []) :
    (it0.available.getD true = false →
      bookSlotOccCore avail bookings d date s u =
        .error (.http 400 "Slot is unavailable or does not exist.")) ∧
    (it0.available.getD true = true →
      bookSlotOccCore avail bookings d date s u =
        .ok (ddbPutAvail avail ⟨d ++ "#" ++ weekdayOf dt, it0.SK, some false⟩,
             bookings ++
               [⟨d ++ "#" ++ date, (s ++ "#") ++ u, d, date, s, u, none⟩]) ∧
      bookSlotOccCore
        (ddbPutAvail avail ⟨d ++ "#" ++ weekdayOf dt, it0.SK, some false⟩)
        (bookings ++ [⟨d ++ "#" ++ date, (s ++ "#") ++ u, d, date, s, u, none⟩])
        d date s u2 =
        .error (.http 400 "Slot is unavailable or does not exist.") ∧
      cancelSlotOccCore
        (ddbPutAvail avail ⟨d ++ "#" ++ weekdayOf dt, it0.SK, some false⟩)
        (bookings ++ [⟨d ++ "#" ++ date, (s ++ "#") ++ u, d, date, s, u, none⟩])
        d date s u =
        .ok (ddbPutAvail
              (ddbPutAvail avail ⟨d ++ "#" ++ weekdayOf dt, it0.SK, some false⟩)
              ⟨d ++ "#" ++ weekdayOf dt, it0.SK, some true⟩, bookings) ∧
      bookSlotOccCore
        (ddbPutAvail
          (ddbPutAvail avail ⟨d ++ "#" ++ weekdayOf dt, it0.SK, some false⟩)
          ⟨d ++ "#" ++ weekdayOf dt, it0.SK, some true⟩)
        bookings d date s u2 =
        .ok (ddbPutAvail
              (ddbPutAvail
                (ddbPutAvail avail ⟨d ++ "#" ++ weekdayOf dt, it0.SK, some false⟩)
                ⟨d ++ "#" ++ weekdayOf dt, it0.SK, some true⟩)
              ⟨d ++ "#" ++ weekdayOf dt, it0.SK, some false⟩,
             bookings ++
               [⟨d ++ "#" ++ date, (s ++ "#") ++ u2, d, date, s, u2, none⟩])) := by
  constructor
  · intro hflag
    exact bookOccFail d date s u dt it0 avail bookings hdt hmatch hflag
  · intro hflag
    have hmatch1 := availMatch_put (d ++ "#" ++ weekdayOf dt) s avail it0 false hmatch
    have hmatch2 := availMatch_put (d ++ "#" ++ weekdayOf dt) s
      (ddbPutAvail avail ⟨d ++ "#" ++ weekdayOf dt, it0.SK, some false⟩)
      ⟨d ++ "#" ++ weekdayOf dt, it0.SK, some false⟩ true hmatch1
    refine ⟨bookOccOk d date s u dt it0 avail bookings hdt hmatch hclean hflag,
      ?_, ?_, ?_⟩
    · exact bookOccFail d date s u2 dt
        ⟨d ++ "#" ++ weekdayOf dt, it0.SK, some false⟩
        (ddbPutAvail avail ⟨d ++ "#" ++ weekdayOf dt, it0.SK, some false⟩)
        (bookings ++ [⟨d ++ "#" ++ date, (s ++ "#") ++ u, d, date, s, u, none⟩])
        hdt hmatch1 rfl
    · exact cancelOccOk d date s u dt
        ⟨d ++ "#" ++ weekdayOf dt, it0.SK, some false⟩
        (ddbPutAvail avail ⟨d ++ "#" ++ weekdayOf dt, it0.SK, some false⟩)
        bookings hdt hmatch1 hclean
    · exact bookOccOk d date s u2 dt
        ⟨d ++ "#" ++ weekdayOf dt, it0.SK, some true⟩
        (ddbPutAvail
          (ddbPutAvail avail ⟨d ++ "#" ++ weekdayOf dt, it0.SK, some false⟩)
          ⟨d ++ "#" ++ weekdayOf dt, it0.SK, some true⟩)
        bookings hdt hmatch2 hclean rfl

/-- Witness for C7 at concrete inputs: book, blocked second booking, and
cancel on a Monday 09:00 slot. -/
theorem C7_witness :
    bookSlotOccCore [⟨"d1#Monday", "09:00-09:30", some true⟩] []
      "d1" "2025-01-06" "09:00" "u1" =
      .ok ([⟨"d1#Monday", "09:00-09:30", some false⟩],
           [⟨"d1#2025-01-06", "09:00#u1", "d1", "2025-01-06", "09:00", "u1",
             none⟩]) ∧
    bookSlotOccCore [⟨"d1#Monday", "09:00-09:30", some false⟩]
      [⟨"d1#2025-01-06", "09:00#u1", "d1", "2025-01-06", "09:00", "u1", none⟩]
      "d1" "2025-01-06" "09:00" "u2" =
      .error (.http 400 "Slot is unavailable or does not exist.") ∧
    cancelSlotOccCore [⟨"d1#Monday", "09:00-09:30", some false⟩]
      [⟨"d1#2025-01-06", "09:00#u1", "d1", "2025-01-06", "09:00", "u1", none⟩]
      "d1" "2025-01-06" "09:00" "u1" =
      .ok ([⟨"d1#Monday", "09:00-09:30", some true⟩], []) := by
  have h := C7_thm "d1" "2025-01-06" "09:00" "u1" "u2" (2025, 1, 6)
    ⟨"d1#Monday", "09:00-09:30", some true⟩
    [⟨"d1#Monday", "09:00-09:30", some true⟩] [] (by decide) (by decide) rfl
  have h2 := h.2 rfl
  exact ⟨h2.1, h2.2.1, h2.2.2.1⟩

/-! ## Claim C5 -/

theorem ftf_shape (sign : String → Option String) (doc : ARec) (field : String) :
    fetchTransformField sign doc field = doc ∨
    ∃ v, fetchTransformField sign doc field = alSet doc field v := by
  unfold fetchTransformField
  cases alGet doc field with
  | none => exact .inl rfl
  | some v =>
    dsimp only
    by_cases ht : pyTruthy v = true
    · rw [if_pos ht]
      cases v with
      | str s =>
        dsimp only
        cases sign (pyReplace s (bucketUrl "") "") with
        | some u => exact .inr ⟨AttrVal.str u, rfl⟩
        | none => exact .inr ⟨AttrVal.null, rfl⟩
      | bool b => exact .inr ⟨AttrVal.null, rfl⟩
      | int n => exact .inr ⟨AttrVal.null, rfl⟩
      | strList l => exact .inr ⟨AttrVal.null, rfl⟩
      | null => exact .inr ⟨AttrVal.null, rfl⟩
    · rw [if_neg ht]
      exact .inl rfl

theorem ftf_get_other (sign : String → Option String) (doc : ARec)
    (field k : String) (h : field ≠ k) :
    alGet (fetchTransformField sign doc field) k = alGet doc k := by
  rcases ftf_shape sign doc field with hs | ⟨v, hs⟩
  · rw [hs]
  · rw [hs, alGet_alSet_other _ _ _ _ h]

theorem ftf_get_set (sign : String → Option String) (doc : ARec)
    (field s : String) (hv : alGet doc field = some (.str s)) (hne : s ≠ "") :
    alGet (fetchTransformField sign doc field) field =
      some (match sign (pyReplace s (bucketUrl "") "") with
            | some u => AttrVal.str u
            | none => AttrVal.null) := by
  unfold fetchTransformField
  rw [hv]
  have ht : pyTruthy (.str s) = true := by
    simp [pyTruthy]
    exact hne
  simp only [ht, if_true]
  cases hs : sign (pyReplace s (bucketUrl "") "") with
  | some u => simp [alGet_alSet_same]
  | none => simp [alGet_alSet_same]

theorem transformDoc_get_other (sign : String → Option String) (doc : ARec)
    (k : String) (hk : k ∉ urlFields) :
    alGet (transformDoc sign doc) k = alGet doc k := by
  unfold urlFields at hk
  simp only [List.mem_cons, List.not_mem_nil, or_false, not_or] at hk
  obtain ⟨h1, h2, h3⟩ := hk
  unfold transformDoc urlFields
  simp only [List.foldl_cons, List.foldl_nil]
  rw [ftf_get_other _ _ _ _ fun hc => h3 hc.symm,
      ftf_get_other _ _ _ _ fun hc => h2 hc.symm,
      ftf_get_other _ _ _ _ fun hc => h1 hc.symm]

/-- C5: fetchDoctors returns every doctor record with all stored
attributes preserved verbatim — in particular the salted password hash
and the emailVerified flag — except the three document-URL fields, which
(when present with a truthy string value) are replaced by the signed URL
for the key obtained by stripping the public bucket URL (null when
signing fails). -/
theorem C5_thm (sign : String → Option String) (doctors : List ARec) (d : ARec) :
    get_all_doctors sign doctors = doctors.map (transformDoc sign) ∧
    alGet (transformDoc sign d) "password" = alGet d "password" ∧
    alGet (transformDoc sign d) "emailVerified" = alGet d "emailVerified" ∧
    (∀ k, k ∉ urlFields → alGet (transformDoc sign d) k = alGet d k) ∧
    (∀ s, alGet d "profilePhoto" = some (.str s) → s ≠ "" →
      alGet (transformDoc sign d) "profilePhoto" =
        some (match sign (pyReplace s (bucketUrl "") "") with
              | some u => AttrVal.str u
              | none => AttrVal.null)) ∧
    (∀ s, alGet d "degreeCertificate" = some (.str s) → s ≠ "" →
      alGet (transformDoc sign d) "degreeCertificate" =
        some (match sign (pyReplace s (bucketUrl "") "") with
              | some u => AttrVal.str u
              | none => AttrVal.null)) ∧
    (∀ s, alGet d "govtIdProof" = some (.str s) → s ≠ "" →
      alGet (transformDoc sign d) "govtIdProof" =
        some (match sign (pyReplace s (bucketUrl "") "") with
              | some u => AttrVal.str u
              | none => AttrVal.null)) := by
  refine ⟨rfl, ?_, ?_, ?_, ?_, ?_, ?_⟩
  · exact transformDoc_get_other sign d "password" (by decide)
  · exact transformDoc_get_other sign d "emailVerified" (by decide)
  · exact fun k hk => transformDoc_get_other sign d k hk
  · intro s hv hne
    unfold transformDoc urlFields
    simp only [List.foldl_cons, List.foldl_nil]
    rw [ftf_get_other _ _ _ _ (by decide),
        ftf_get_other _ _ _ _ (by decide)]
    exact ftf_get_set sign d _ s hv hne
  · intro s hv hne
    unfold transformDoc urlFields
    simp only [List.foldl_cons, List.foldl_nil]
    rw [ftf_get_other _ _ _ _ (by decide)]
    rw [ftf_get_set sign _ _ s (by rw [ftf_get_other _ _ _ _ (by decide)]; exact hv) hne]
  · intro s hv hne
    unfold transformDoc urlFields
    simp only [List.foldl_cons, List.foldl_nil]
    rw [ftf_get_set sign _ _ s ?hv2 hne]
    case hv2 =>
      rw [ftf_get_other _ _ _ _ (by decide),
          ftf_get_other _ _ _ _ (by decide)]
      exact hv

/-- Witness for C5 at a concrete record: the password hash survives
verbatim and the profile photo URL is replaced by the signed URL. -/
theorem C5_witness :
    alGet (transformDoc (fun _ => some "SIGNED")
      [("email", AttrVal.str "d@x"), ("password", AttrVal.str "h$pw"),
       ("emailVerified", AttrVal.bool false),
       ("profilePhoto", AttrVal.str (bucketUrl "doctors/d@x/profilePhoto/p.png"))])
      "password" = some (AttrVal.str "h$pw") ∧
    alGet (transformDoc (fun _ => some "SIGNED")
      [("email", AttrVal.str "d@x"), ("password", AttrVal.str "h$pw"),
       ("emailVerified", AttrVal.bool false),
       ("profilePhoto", AttrVal.str (bucketUrl "doctors/d@x/profilePhoto/p.png"))])
      "profilePhoto" = some (AttrVal.str "SIGNED") := by
  have h := C5_thm (fun _ => some "SIGNED") []
    [("email", AttrVal.str "d@x"), ("password", AttrVal.str "h$pw"),
     ("emailVerified", AttrVal.bool false),
     ("profilePhoto", AttrVal.str (bucketUrl "doctors/d@x/profilePhoto/p.png"))]
  refine ⟨h.2.1.trans (by decide), ?_⟩
  have h2 := h.2.2.2.2.1 (bucketUrl "doctors/d@x/profilePhoto/p.png")
    (by decide) (by decide)
  exact h2

/-! ## Claim C10 -/

/-- C10: for every non-blank chat message — (i) when the retrieval
service answers HTTP 200 with a stripped "response" field that is
non-empty and not the sentinel "none" (case-insensitive), that stripped
response is stored and returned and the outcome is independent of the
language-model backend (the LLM is not consulted); (ii) on a retrieval
transport failure or timeout, any other retrieval exception, a non-200
retrieval status, or an empty/sentinel answer, the turn equals the pure
language-model fallback — the retrieval failure is not surfaced to the
caller. -/
theorem C10_thm (tbl : List ChatItem) (user_id message body : String)
    (llm llm2 : CallOut) (stc : Nat) (bodyO : Option String)
    (emsg : String) (ts : Int) (hmsg : pyStrip message ≠ "") :
    (pyStrip body ≠ "" → pyLower (pyStrip body) ≠ "none" →
      chat tbl user_id message (.resp 200 (some body)) llm ts =
        .ok (pyStrip body,
             store_message tbl user_id message (pyStrip body) ts) ∧
      chat tbl user_id message (.resp 200 (some body)) llm ts =
        chat tbl user_id message (.resp 200 (some body)) llm2 ts) ∧
    (stc ≠ 200 →
      chat tbl user_id message (.resp stc bodyO) llm ts =
        chatFallback tbl user_id message llm ts) ∧
    chat tbl user_id message (.reqExn emsg) llm ts =
      chatFallback tbl user_id message llm ts ∧
    chat tbl user_id message (.otherExn emsg) llm ts =
      chatFallback tbl user_id message llm ts ∧
    (pyStrip body = "" ∨ pyLower (pyStrip body) = "none" →
      chat tbl user_id message (.resp 200 (some body)) llm ts =
        chatFallback tbl user_id message llm ts) := by
  refine ⟨?_, ?_, ?_, ?_, ?_⟩
  · intro h1 h2
    have hacc : ∀ l : CallOut,
        chat tbl user_id message (.resp 200 (some body)) l ts =
          .ok (pyStrip body,
               store_message tbl user_id message (pyStrip body) ts) := by
      intro l
      unfold chat
      rw [if_neg hmsg]
      dsimp only
      rw [if_pos rfl, if_pos ⟨h1, h2⟩]
      rfl
    exact ⟨hacc llm, (hacc llm).trans (hacc llm2).symm⟩
  · intro hstc
    unfold chat
    rw [if_neg hmsg]
    dsimp only
    rw [if_neg hstc]
  · unfold chat
    rw [if_neg hmsg]
  · unfold chat
    rw [if_neg hmsg]
  · intro hcase
    unfold chat
    rw [if_neg hmsg]
    dsimp only
    rw [if_pos rfl]
    rcases hcase with hc | hc
    · rw [if_neg fun hand => hand.1 hc]
    · rw [if_neg fun hand => hand.2 hc]

/-- Witness for C10 at concrete inputs: a retrieval answer is returned
without consulting the LLM, and a retrieval timeout falls back to it. -/
theorem C10_witness :
    chat [] "u@x" "chest pain" (.resp 200 (some " Rest. ")) (.reqExn "t") 5 =
      .ok ("Rest.", [⟨"u@x", 5, "chest pain", "Rest."⟩]) ∧
    chat [] "u@x" "chest pain" (.reqExn "timeout") (.resp 200 (some "ok")) 5 =
      chatFallback [] "u@x" "chest pain" (.resp 200 (some "ok")) 5 := by
  have h := C10_thm [] "u@x" "chest pain" " Rest. " (.reqExn "t")
    (.otherExn "x") 500 none "timeout" 5 (by decide)
  refine ⟨?_, ?_⟩
  · exact ((h.1 (by decide) (by decide)).1).trans (by decide)
  · have h2 := C10_thm [] "u@x" "chest pain" " Rest. "
      (.resp 200 (some "ok")) (.otherExn "x") 500 none "timeout" 5 (by decide)
    exact h2.2.2.1

/-! ## C4 amended -/

/-- The write one loop iteration performs for a non-colliding,
well-encoded file. -/
def s3WriteOf (email : String) (g : FileUpload) (st : List S3Obj) : List S3Obj :=
  s3Put st ⟨email ++ "/" ++ g.filename, (b64decode g.content).getD [], g.metadata⟩

theorem uploadLoop_pre (email : String) (existing : List String)
    (pre rest : List FileUpload) (store : List S3Obj)
    (hpre : ∀ g ∈ pre, g.filename ∉ existing ∧ (b64decode g.content).isSome) :
    uploadLoop email existing (pre ++ rest) store =
      uploadLoop email existing rest
        (pre.foldl (fun st g => s3WriteOf email g st) store) := by
  induction pre generalizing store with
  | nil => rfl
  | cons g pre ih =>
    obtain ⟨hfresh, hdec⟩ := hpre g (by simp)
    simp only [List.cons_append, List.foldl_cons]
    conv_lhs => unfold uploadLoop
    rw [if_neg hfresh]
    cases hb : b64decode g.content with
    | none => rw [hb] at hdec; simp at hdec
    | some bytes =>
      dsimp only
      have hst : s3Put store ⟨email ++ "/" ++ g.filename, bytes, g.metadata⟩ =
          s3WriteOf email g store := by
        unfold s3WriteOf
        rw [hb]
        rfl
      rw [hst]
      exact ih _ fun g2 h2 => hpre g2 (by simp [h2])

theorem filter_map_keep {α : Type} (p : α → Bool) (f : α → α) (l : List α)
    (h : ∀ a ∈ l, p (f a) = p a ∧ (p a = true → f a = a)) :
    (l.map f).filter p = l.filter p := by
  induction l with
  | nil => rfl
  | cons a l ih =>
    simp only [List.map_cons, List.filter_cons, (h a (by simp)).1]
    rw [ih fun b hb => h b (by simp [hb])]
    cases hp : p a with
    | true => rw [(h a (by simp)).2 hp]
    | false => simp [hp]

theorem s3Put_filter_other (st : List S3Obj) (obj : S3Obj) (key : String)
    (h : obj.key ≠ key) :
    (s3Put st obj).filter (fun o => o.key == key) =
      st.filter (fun o => o.key == key) := by
  unfold s3Put
  by_cases hany : (st.any fun o => o.key == obj.key) = true
  · rw [if_pos hany]
    apply filter_map_keep
    intro a ha
    by_cases hk : (a.key == obj.key) = true
    · rw [beq_iff_eq] at hk
      constructor
      · simp only [hk]
        rw [if_pos (by simp)]
      · intro hpa
        rw [beq_iff_eq] at hpa
        rw [hpa] at hk
        exact absurd hk.symm h
    · rw [if_neg fun hc => hk (by simp [hc])]
      exact ⟨rfl, fun _ => rfl⟩
  · rw [if_neg hany, List.filter_append]
    have hobj : ((obj.key == key) = false) := by
      cases hx : (obj.key == key) with
      | true => rw [beq_iff_eq] at hx; exact absurd hx h
      | false => rfl
    simp [hobj]

theorem foldWrites_filter (email key : String) (pre : List FileUpload)
    (store : List S3Obj)
    (hkeys : ∀ g ∈ pre, email ++ "/" ++ g.filename ≠ key) :
    ((pre.foldl (fun st g => s3WriteOf email g st) store).filter
      (fun o => o.key == key)) = store.filter (fun o => o.key == key) := by
  induction pre generalizing store with
  | nil => rfl
  | cons g pre ih =>
    simp only [List.foldl_cons]
    rw [ih _ fun g2 h2 => hkeys g2 (by simp [h2])]
    exact s3Put_filter_other store _ key (hkeys g (by simp))

/-- C4 amended: when a batch contains a file whose name is already
present under the patient's prefix, the upload aborts at the first
colliding file with the deliberate 409 (surfaced as a 500 by the
handler's catch-all): every collision-free, well-encoded file before it
has already been written, the colliding file and everything after it are
not written, and the objects stored under the colliding file's key are
left exactly as they were (the existing object is not overwritten). -/
theorem C4_amended_thm (store : List S3Obj) (email : String)
    (pre post : List FileUpload) (f : FileUpload)
    (hcol : f.filename ∈ existingNamesOf store email)
    (hpre : ∀ g ∈ pre, g.filename ∉ existingNamesOf store email ∧
      (b64decode g.content).isSome) :
    uploadFileCore store email (pre ++ f :: post) =
      (.error (.http 409 "File with the same name already exists"),
       pre.foldl (fun st g => s3WriteOf email g st) store) ∧
    upload_file store email (pre ++ f :: post) =
      (.error (500, "409: File with the same name already exists"),
       pre.foldl (fun st g => s3WriteOf email g st) store) ∧
    ((upload_file store email (pre ++ f :: post)).2).filter
      (fun o => o.key == email ++ "/" ++ f.filename) =
      store.filter (fun o => o.key == email ++ "/" ++ f.filename) := by
  have hloop := uploadLoop_pre email (existingNamesOf store email) pre
    (f :: post) store hpre
  have hstep : uploadLoop email (existingNamesOf store email) (f :: post)
      (pre.foldl (fun st g => s3WriteOf email g st) store) =
      (.error (.http 409 "File with the same name already exists"),
       pre.foldl (fun st g => s3WriteOf email g st) store) := by
    unfold uploadLoop
    rw [if_pos hcol]
  have hcore : uploadFileCore store email (pre ++ f :: post) =
      (.error (.http 409 "File with the same name already exists"),
       pre.foldl (fun st g => s3WriteOf email g st) store) := by
    unfold uploadFileCore
    dsimp only
    rw [hloop, hstep]
  have hkeys : ∀ g ∈ pre, email ++ "/" ++ g.filename ≠
      email ++ "/" ++ f.filename := by
    intro g hg heq
    have hgf : g.filename = f.filename := string_append_right_inj heq
    exact (hpre g hg).1 (hgf ▸ hcol)
  refine ⟨hcore, ?_, ?_⟩
  · unfold upload_file
    dsimp only
    rw [hcore]
    rfl
  · unfold upload_file
    dsimp only
    rw [hcore]
    exact foldWrites_filter email _ pre store hkeys

/-- Witness for C4 amended at concrete inputs: a fresh x.txt before the
colliding report.pdf is written, the batch then aborts, and the stored
report.pdf object survives unchanged. -/
theorem C4_amended_witness :
    uploadFileCore [⟨"p@x/report.pdf", [1, 2], []⟩] "p@x"
      ([⟨"x.txt", "QUJD", []⟩] ++ ⟨"report.pdf", "QQ==", []⟩ :: []) =
      (.error (.http 409 "File with the same name already exists"),
       [⟨"p@x/report.pdf", [1, 2], []⟩, ⟨"p@x/x.txt", [65, 66, 67], []⟩]) := by
  have h := C4_amended_thm [⟨"p@x/report.pdf", [1, 2], []⟩] "p@x"
    [⟨"x.txt", "QUJD", []⟩] [] ⟨"report.pdf", "QQ==", []⟩
    (by decide) (by decide)
  exact h.1.trans (by decide)

/-! ## C8 amended -/

theorem alGet_applyUpdates_notmem (updates : List (String × AttrVal)) (r : ARec)
    (k : String) (h : ∀ kv ∈ updates, kv.1 ≠ k) :
    alGet (applyUpdates r updates) k = alGet r k := by
  induction updates generalizing r with
  | nil => rfl
  | cons kv rest ih =>
    show alGet (applyUpdates (alSet r kv.1 kv.2) rest) k = alGet r k
    rw [ih (alSet r kv.1 kv.2) fun kv2 h2 => h kv2 (by simp [h2])]
    exact alGet_alSet_other _ _ _ _ (h kv (by simp))

theorem alGet_applyUpdates_mem (updates : List (String × AttrVal)) (r : ARec)
    (k : String) (v : AttrVal) (hmem : (k, v) ∈ updates)
    (hnd : (updates.map Prod.fst).Nodup) :
    alGet (applyUpdates r updates) k = some v := by
  induction updates generalizing r with
  | nil => simp at hmem
  | cons kv rest ih =>
    simp only [List.map_cons, List.nodup_cons] at hnd
    obtain ⟨hk1, hnd2⟩ := hnd
    rcases List.mem_cons.mp hmem with heq | hmem2
    · subst heq
      have hnot : ∀ kv2 ∈ rest, kv2.1 ≠ k := by
        intro kv2 h2 hc
        exact hk1 (hc ▸ List.mem_map.mpr ⟨kv2, h2, rfl⟩)
      show alGet (applyUpdates (alSet r k v) rest) k = some v
      rw [alGet_applyUpdates_notmem rest _ k hnot]
      exact alGet_alSet_same r k v
    · show alGet (applyUpdates (alSet r kv.1 kv.2) rest) k = some v
      exact ih _ hmem2 hnd2

theorem mem_optEntry_iff {kv : String × AttrVal} {k : String} {v : Option AttrVal} :
    kv ∈ optEntry k v ↔ ∃ a, v = some a ∧ kv = (k, a) := by
  cases v with
  | none => simp [optEntry]
  | some a => simp [optEntry]

theorem optEntry_keys (k : String) (v : Option AttrVal) :
    List.Sublist ((optEntry k v).map Prod.fst) [k] := by
  cases v with
  | none => exact List.nil_sublist _
  | some a => exact List.Sublist.refl _

/-- The full key list a profile update may touch, in build order. -/
def profileKeys : List String :=
  ["specialization", "experience", "fees", "timings", "licenseNumber",
   "registrationId", "affiliation", "degreeCertificate", "govtIdProof",
   "profilePhoto", "onboarded"]

theorem profileUpdates_keys_sub (inp : DoctorProfileUpdate)
    (dU gU pU : Option String) :
    List.Sublist ((profileUpdates inp dU gU pU).map Prod.fst) profileKeys := by
  unfold profileUpdates profileKeys
  simp only [List.map_append]
  show List.Sublist _ ((((((((((["specialization"] ++ ["experience"]) ++ ["fees"]) ++
    ["timings"]) ++ ["licenseNumber"]) ++ ["registrationId"]) ++
    ["affiliation"]) ++ ["degreeCertificate"]) ++ ["govtIdProof"]) ++
    ["profilePhoto"]) ++ ["onboarded"])
  exact ((((((((((optEntry_keys _ _).append (optEntry_keys _ _)).append
    (optEntry_keys _ _)).append (optEntry_keys _ _)).append
    (optEntry_keys _ _)).append (optEntry_keys _ _)).append
    (optEntry_keys _ _)).append (optEntry_keys _ _)).append
    (optEntry_keys _ _)).append (optEntry_keys _ _)).append
    (List.Sublist.refl _)

theorem profileUpdates_keys_nodup (inp : DoctorProfileUpdate)
    (dU gU pU : Option String) :
    ((profileUpdates inp dU gU pU).map Prod.fst).Nodup := by
  have h2 : profileKeys.Nodup := by decide
  exact h2.sublist (profileUpdates_keys_sub inp dU gU pU)

theorem profileUpdates_isEmpty_false (inp : DoctorProfileUpdate)
    (dU gU pU : Option String) :
    (profileUpdates inp dU gU pU).isEmpty = false := by
  rw [Bool.eq_false_iff]
  intro hc
  rw [List.isEmpty_iff] at hc
  unfold profileUpdates at hc
  simp [List.append_eq_nil] at hc

/-- The URL a supplied document is stored under (none when absent). -/
def docUrlOf (email doc_type : String) : Option UploadDoc → Option String
  | none => none
  | some u =>
    some (bucketUrl ("doctors/" ++ email ++ "/" ++ doc_type ++ "/" ++
      urlQuote u.filename))

/-- The SET expression the update builds, with document URLs resolved. -/
def updatesOf (inp : DoctorProfileUpdate) : List (String × AttrVal) :=
  profileUpdates inp
    (docUrlOf inp.email "degreeCertificate" inp.degreeCertificate)
    (docUrlOf inp.email "govtIdProof" inp.govtIdProof)
    (docUrlOf inp.email "profilePhoto" inp.profilePhoto)

/-- The merged doctor record the update writes back. -/
def mergedProfile (doctor : ARec) (inp : DoctorProfileUpdate) : ARec :=
  applyUpdates doctor (updatesOf inp)

theorem finishProfile_eval (doctors : List ARec) (doctor : ARec)
    (inp : DoctorProfileUpdate) (dU gU pU : Option String) (s3c : List S3Obj) :
    finishProfile doctors doctor inp dU gU pU s3c =
      .ok (replaceFirst doctors
        (fun r => alGet r "email" == some (.str inp.email))
        (applyUpdates doctor (profileUpdates inp dU gU pU)), s3c) := by
  unfold finishProfile
  simp only [profileUpdates_isEmpty_false, Bool.false_eq_true, if_false]

theorem stagePho_eval (doctors : List ARec) (doctor : ARec)
    (inp : DoctorProfileUpdate) (degUrl govUrl : Option String)
    (s3b : List S3Obj)
    (hpho : ∀ dd, inp.profilePhoto = some dd →
      (b64decode dd.base64_content).isSome) :
    ∃ s3c, profileStagePho doctors doctor inp degUrl govUrl s3b =
      finishProfile doctors doctor inp degUrl govUrl
        (docUrlOf inp.email "profilePhoto" inp.profilePhoto) s3c := by
  cases hp : inp.profilePhoto with
  | none =>
    refine ⟨s3b, ?_⟩
    unfold profileStagePho
    rw [hp]
    rfl
  | some dd =>
    obtain ⟨bytes, hb⟩ := Option.isSome_iff_exists.mp (hpho dd hp)
    refine ⟨s3Put s3b ⟨"doctors/" ++ inp.email ++ "/" ++ "profilePhoto" ++ "/" ++
      urlQuote dd.filename, bytes, []⟩, ?_⟩
    unfold profileStagePho upload_doc_to_s3
    rw [hp]
    dsimp only
    rw [hb]
    rfl

theorem stageGov_eval (doctors : List ARec) (doctor : ARec)
    (inp : DoctorProfileUpdate) (degUrl : Option String) (s3a : List S3Obj)
    (hgov : ∀ dd, inp.govtIdProof = some dd →
      (b64decode dd.base64_content).isSome)
    (hpho : ∀ dd, inp.profilePhoto = some dd →
      (b64decode dd.base64_content).isSome) :
    ∃ s3c, profileStageGov doctors doctor inp degUrl s3a =
      finishProfile doctors doctor inp degUrl
        (docUrlOf inp.email "govtIdProof" inp.govtIdProof)
        (docUrlOf inp.email "profilePhoto" inp.profilePhoto) s3c := by
  cases hg : inp.govtIdProof with
  | none =>
    obtain ⟨s3c, hc⟩ := stagePho_eval doctors doctor inp degUrl none s3a hpho
    refine ⟨s3c, ?_⟩
    unfold profileStageGov
    rw [hg]
    exact hc
  | some dd =>
    obtain ⟨bytes, hb⟩ := Option.isSome_iff_exists.mp (hgov dd hg)
    obtain ⟨s3c, hc⟩ := stagePho_eval doctors doctor inp degUrl
      (some (bucketUrl ("doctors/" ++ inp.email ++ "/" ++ "govtIdProof" ++ "/" ++
        urlQuote dd.filename)))
      (s3Put s3a ⟨"doctors/" ++ inp.email ++ "/" ++ "govtIdProof" ++ "/" ++
        urlQuote dd.filename, bytes, []⟩) hpho
    refine ⟨s3c, ?_⟩
    unfold profileStageGov upload_doc_to_s3
    rw [hg]
    dsimp only
    rw [hb]
    exact hc

theorem coreProfile_eval (doctors : List ARec) (s3 : List S3Obj)
    (inp : DoctorProfileUpdate) (doctor : ARec)
    (hdoc : dtableGet doctors inp.email = some doctor)
    (hdeg : ∀ dd, inp.degreeCertificate = some dd →
      (b64decode dd.base64_content).isSome)
    (hgov : ∀ dd, inp.govtIdProof = some dd →
      (b64decode dd.base64_content).isSome)
    (hpho : ∀ dd, inp.profilePhoto = some dd →
      (b64decode dd.base64_content).isSome) :
    ∃ s3f, completeDoctorProfileCore doctors s3 inp =
      .ok (replaceFirst doctors
        (fun r => alGet r "email" == some (.str inp.email))
        (mergedProfile doctor inp), s3f) := by
  cases hd : inp.degreeCertificate with
  | none =>
    obtain ⟨s3c, hc⟩ := stageGov_eval doctors doctor inp none s3 hgov hpho
    refine ⟨s3c, ?_⟩
    unfold completeDoctorProfileCore
    rw [hdoc]
    dsimp only
    rw [hd]
    dsimp only
    rw [hc, finishProfile_eval]
    unfold mergedProfile updatesOf
    rw [hd]
    rfl
  | some dd =>
    obtain ⟨bytes, hb⟩ := Option.isSome_iff_exists.mp (hdeg dd hd)
    obtain ⟨s3c, hc⟩ := stageGov_eval doctors doctor inp
      (some (bucketUrl ("doctors/" ++ inp.email ++ "/" ++ "degreeCertificate" ++ "/" ++
        urlQuote dd.filename)))
      (s3Put s3 ⟨"doctors/" ++ inp.email ++ "/" ++ "degreeCertificate" ++ "/" ++
        urlQuote dd.filename, bytes, []⟩) hgov hpho
    refine ⟨s3c, ?_⟩
    unfold completeDoctorProfileCore upload_doc_to_s3
    rw [hdoc]
    dsimp only
    rw [hd]
    dsimp only
    rw [hb]
    dsimp only
    rw [hc, finishProfile_eval]
    unfold mergedProfile updatesOf
    rw [hd]
    rfl

/-- C8 amended: for every update-profile call — a call naming a
non-existent doctor fails with NotFound; a call on an existing doctor
whose supplied documents decode succeeds (even when no fields and no
documents are supplied: the InvalidInput guard is unreachable), writing
back the record merged with exactly the supplied fields: onboarded is
always set to true, every supplied profile field and document URL is
written, every key the SET expression does not mention keeps its prior
value, and the SET expression contains nothing but the supplied fields,
the supplied document URLs and onboarded. -/
theorem C8_amended_thm (doctors : List ARec) (s3 : List S3Obj)
    (inp : DoctorProfileUpdate) (doctor : ARec)
    (hdeg : ∀ dd, inp.degreeCertificate = some dd →
      (b64decode dd.base64_content).isSome)
    (hgov : ∀ dd, inp.govtIdProof = some dd →
      (b64decode dd.base64_content).isSome)
    (hpho : ∀ dd, inp.profilePhoto = some dd →
      (b64decode dd.base64_content).isSome) :
    (dtableGet doctors inp.email = none →
      complete_doctor_profile doctors s3 inp =
        .error (404, "Doctor not found. Please sign up first.")) ∧
    (dtableGet doctors inp.email = some doctor →
      ∃ s3f, complete_doctor_profile doctors s3 inp =
        .ok (replaceFirst doctors
          (fun r => alGet r "email" == some (.str inp.email))
          (mergedProfile doctor inp), s3f)) ∧
    alGet (mergedProfile doctor inp) "onboarded" = some (.bool true) ∧
    (∀ v, inp.specialization = some v →
      alGet (mergedProfile doctor inp) "specialization" = some (.str v)) ∧
    (∀ v, inp.experience = some v →
      alGet (mergedProfile doctor inp) "experience" = some (.str v)) ∧
    (∀ v, inp.fees = some v →
      alGet (mergedProfile doctor inp) "fees" = some (.int v)) ∧
    (∀ v, inp.timings = some v →
      alGet (mergedProfile doctor inp) "timings" = some (.str v)) ∧
    (∀ v, inp.licenseNumber = some v →
      alGet (mergedProfile doctor inp) "licenseNumber" = some (.str v)) ∧
    (∀ v, inp.registrationId = some v →
      alGet (mergedProfile doctor inp) "registrationId" = some (.str v)) ∧
    (∀ v, inp.affiliation = some v →
      alGet (mergedProfile doctor inp) "affiliation" = some (.str v)) ∧
    (∀ dd, inp.degreeCertificate = some dd →
      alGet (mergedProfile doctor inp) "degreeCertificate" =
        some (.str (bucketUrl ("doctors/" ++ inp.email ++ "/" ++
          "degreeCertificate" ++ "/" ++ urlQuote dd.filename)))) ∧
    (∀ dd, inp.govtIdProof = some dd →
      alGet (mergedProfile doctor inp) "govtIdProof" =
        some (.str (bucketUrl ("doctors/" ++ inp.email ++ "/" ++
          "govtIdProof" ++ "/" ++ urlQuote dd.filename)))) ∧
    (∀ dd, inp.profilePhoto = some dd →
      alGet (mergedProfile doctor inp) "profilePhoto" =
        some (.str (bucketUrl ("doctors/" ++ inp.email ++ "/" ++
          "profilePhoto" ++ "/" ++ urlQuote dd.filename)))) ∧
    (∀ k, (∀ kv ∈ updatesOf inp, kv.1 ≠ k) →
      alGet (mergedProfile doctor inp) k = alGet doctor k) ∧
    (∀ kv ∈ updatesOf inp,
      kv = ("onboarded", AttrVal.bool true) ∨
      (∃ v, inp.specialization = some v ∧ kv = ("specialization", .str v)) ∨
      (∃ v, inp.experience = some v ∧ kv = ("experience", .str v)) ∨
      (∃ v, inp.fees = some v ∧ kv = ("fees", .int v)) ∨
      (∃ v, inp.timings = some v ∧ kv = ("timings", .str v)) ∨
      (∃ v, inp.licenseNumber = some v ∧ kv = ("licenseNumber", .str v)) ∨
      (∃ v, inp.registrationId = some v ∧ kv = ("registrationId", .str v)) ∨
      (∃ v, inp.affiliation = some v ∧ kv = ("affiliation", .str v)) ∨
      (∃ dd, inp.degreeCertificate = some dd ∧
        kv = ("degreeCertificate", .str (bucketUrl ("doctors/" ++ inp.email ++
          "/" ++ "degreeCertificate" ++ "/" ++ urlQuote dd.filename)))) ∨
      (∃ dd, inp.govtIdProof = some dd ∧
        kv = ("govtIdProof", .str (bucketUrl ("doctors/" ++ inp.email ++
          "/" ++ "govtIdProof" ++ "/" ++ urlQuote dd.filename)))) ∨
      (∃ dd, inp.profilePhoto = some dd ∧
        kv = ("profilePhoto", .str (bucketUrl ("doctors/" ++ inp.email ++
          "/" ++ "profilePhoto" ++ "/" ++ urlQuote dd.filename))))) := by
  have hnd := profileUpdates_keys_nodup inp
    (docUrlOf inp.email "degreeCertificate" inp.degreeCertificate)
    (docUrlOf inp.email "govtIdProof" inp.govtIdProof)
    (docUrlOf inp.email "profilePhoto" inp.profilePhoto)
  refine ⟨?_, ?_, ?_, ?_, ?_, ?_, ?_, ?_, ?_, ?_, ?_, ?_, ?_, ?_, ?_⟩
  · intro hnone
    unfold complete_doctor_profile completeDoctorProfileCore
    rw [hnone]
    rfl
  · intro hdoc
    obtain ⟨s3f, hf⟩ := coreProfile_eval doctors s3 inp doctor hdoc hdeg hgov hpho
    exact ⟨s3f, by unfold complete_doctor_profile; rw [hf]; rfl⟩
  · exact alGet_applyUpdates_mem _ doctor _ _
      (by simp [updatesOf, profileUpdates]) hnd
  · intro v hv
    exact alGet_applyUpdates_mem _ doctor _ _
      (by simp [updatesOf, profileUpdates, optEntry, hv]) hnd
  · intro v hv
    exact alGet_applyUpdates_mem _ doctor _ _
      (by simp [updatesOf, profileUpdates, optEntry, hv]) hnd
  · intro v hv
    exact alGet_applyUpdates_mem _ doctor _ _
      (by simp [updatesOf, profileUpdates, optEntry, hv]) hnd
  · intro v hv
    exact alGet_applyUpdates_mem _ doctor _ _
      (by simp [updatesOf, profileUpdates, optEntry, hv]) hnd
  · intro v hv
    exact alGet_applyUpdates_mem _ doctor _ _
      (by simp [updatesOf, profileUpdates, optEntry, hv]) hnd
  · intro v hv
    exact alGet_applyUpdates_mem _ doctor _ _
      (by simp [updatesOf, profileUpdates, optEntry, hv]) hnd
  · intro v hv
    exact alGet_applyUpdates_mem _ doctor _ _
      (by simp [updatesOf, profileUpdates, optEntry, hv]) hnd
  · intro dd hv
    exact alGet_applyUpdates_mem _ doctor _ _
      (by simp [updatesOf, profileUpdates, optEntry, docUrlOf, hv]) hnd
  · intro dd hv
    exact alGet_applyUpdates_mem _ doctor _ _
      (by simp [updatesOf, profileUpdates, optEntry, docUrlOf, hv]) hnd
  · intro dd hv
    exact alGet_applyUpdates_mem _ doctor _ _
      (by simp [updatesOf, profileUpdates, optEntry, docUrlOf, hv]) hnd
  · intro k hk
    exact alGet_applyUpdates_notmem _ doctor k hk
  · intro kv hkv
    unfold updatesOf profileUpdates at hkv
    simp only [List.mem_append, mem_optEntry_iff, List.mem_singleton] at hkv
    rcases hkv with ((((((((((h | h) | h) | h) | h) | h) | h) | h) | h) | h) | h)
    · obtain ⟨a, ha, rfl⟩ := h
      rw [Option.map_eq_some'] at ha
      obtain ⟨v, hv, hfa⟩ := ha
      subst hfa
      exact .inr (.inl ⟨v, hv, rfl⟩)
    · obtain ⟨a, ha, rfl⟩ := h
      rw [Option.map_eq_some'] at ha
      obtain ⟨v, hv, hfa⟩ := ha
      subst hfa
      exact .inr (.inr (.inl ⟨v, hv, rfl⟩))
    · obtain ⟨a, ha, rfl⟩ := h
      rw [Option.map_eq_some'] at ha
      obtain ⟨v, hv, hfa⟩ := ha
      subst hfa
      exact .inr (.inr (.inr (.inl ⟨v, hv, rfl⟩)))
    · obtain ⟨a, ha, rfl⟩ := h
      rw [Option.map_eq_some'] at ha
      obtain ⟨v, hv, hfa⟩ := ha
      subst hfa
      exact .inr (.inr (.inr (.inr (.inl ⟨v, hv, rfl⟩))))
    · obtain ⟨a, ha, rfl⟩ := h
      rw [Option.map_eq_some'] at ha
      obtain ⟨v, hv, hfa⟩ := ha
      subst hfa
      exact .inr (.inr (.inr (.inr (.inr (.inl ⟨v, hv, rfl⟩)))))
    · obtain ⟨a, ha, rfl⟩ := h
      rw [Option.map_eq_some'] at ha
      obtain ⟨v, hv, hfa⟩ := ha
      subst hfa
      exact .inr (.inr (.inr (.inr (.inr (.inr (.inl ⟨v, hv, rfl⟩))))))
    · obtain ⟨a, ha, rfl⟩ := h
      rw [Option.map_eq_some'] at ha
      obtain ⟨v, hv, hfa⟩ := ha
      subst hfa
      exact .inr (.inr (.inr (.inr (.inr (.inr (.inr (.inl ⟨v, hv, rfl⟩)))))))
    · obtain ⟨a, ha, rfl⟩ := h
      rw [Option.map_eq_some'] at ha
      obtain ⟨url, hurl, hfa⟩ := ha
      subst hfa
      cases hdc : inp.degreeCertificate with
      | none => rw [hdc] at hurl; exact absurd hurl (by simp [docUrlOf])
      | some dd =>
        rw [hdc] at hurl
        simp only [docUrlOf, Option.some.injEq] at hurl
        subst hurl
        exact .inr (.inr (.inr (.inr (.inr (.inr (.inr (.inr (.inl
          ⟨dd, rfl, rfl⟩))))))))
    · obtain ⟨a, ha, rfl⟩ := h
      rw [Option.map_eq_some'] at ha
      obtain ⟨url, hurl, hfa⟩ := ha
      subst hfa
      cases hdc : inp.govtIdProof with
      | none => rw [hdc] at hurl; exact absurd hurl (by simp [docUrlOf])
      | some dd =>
        rw [hdc] at hurl
        simp only [docUrlOf, Option.some.injEq] at hurl
        subst hurl
        exact .inr (.inr (.inr (.inr (.inr (.inr (.inr (.inr (.inr (.inl
          ⟨dd, rfl, rfl⟩)))))))))
    · obtain ⟨a, ha, rfl⟩ := h
      rw [Option.map_eq_some'] at ha
      obtain ⟨url, hurl, hfa⟩ := ha
      subst hfa
      cases hdc : inp.profilePhoto with
      | none => rw [hdc] at hurl; exact absurd hurl (by simp [docUrlOf])
      | some dd =>
        rw [hdc] at hurl
        simp only [docUrlOf, Option.some.injEq] at hurl
        subst hurl
        exact .inr (.inr (.inr (.inr (.inr (.inr (.inr (.inr (.inr (.inr
          ⟨dd, rfl, rfl⟩)))))))))
    · exact .inl h

/-- Witness for C8 at concrete inputs: updating an existing doctor with
only a specialization merges that field and sets onboarded. -/
theorem C8_amended_witness :
    alGet (mergedProfile [("email", AttrVal.str "doc@x"),
        ("password", AttrVal.str "h")]
      ⟨"doc@x", some "cardiology", none, none, none, none, none, none,
       none, none, none⟩) "specialization" =
      some (AttrVal.str "cardiology") ∧
    alGet (mergedProfile [("email", AttrVal.str "doc@x"),
        ("password", AttrVal.str "h")]
      ⟨"doc@x", some "cardiology", none, none, none, none, none, none,
       none, none, none⟩) "onboarded" = some (AttrVal.bool true) ∧
    complete_doctor_profile [] []
      ⟨"doc@x", some "cardiology", none, none, none, none, none, none,
       none, none, none⟩ =
      .error (404, "Doctor not found. Please sign up first.") := by
  have h := C8_amended_thm [] []
    ⟨"doc@x", some "cardiology", none, none, none, none, none, none,
     none, none, none⟩
    [("email", AttrVal.str "doc@x"), ("password", AttrVal.str "h")]
    (by intro dd hdd; cases hdd) (by intro dd hdd; cases hdd)
    (by intro dd hdd; cases hdd)
  exact ⟨h.2.2.2.1 "cardiology" rfl, h.2.2.1, h.1 rfl⟩
